import Mathlib

/-!
Verification development for the morabets-backend enrichment pipeline.

Shallow embedding of the Python sources `odds_api.py`, `contextual.py`,
`enrichment.py` and `fantasy.py`.  Conventions used throughout:

* Python numbers (floats and ints) are modelled as exact rationals; `round(x, 2)`
  is modelled by `pyRound2` (round half to even at two decimals, which is the
  rounding rule of Python `round`).  The concrete rounded values appearing in
  witnesses and counterexamples were cross-checked against CPython semantics.
* Every network interaction is modelled by an `Upstream` oracle supplied as an
  explicit argument: `Upstream.fail` covers timeouts, non-2xx responses and
  malformed payloads (anything making the Python code raise at a request
  boundary), and `Upstream.ok v` is a well-formed JSON payload reduced to the
  part of the response the code actually reads (e.g. the `stats[0].splits`
  list of a game-log response).
* Python dicts of heterogeneous shape (the hit-rate result dicts) are modelled
  by a single structure `RateDict` whose fields are all optional; an absent
  key is `none`.
* Python string formatting `f"{a}_{b}_{c}"` is modelled by `++`-concatenation
  with an injective printer for the numeric component.
-/

/-- Result of one upstream HTTP interaction: `fail` covers timeout, non-2xx
and malformed payloads (everything the Python code turns into a caught
exception); `ok` carries the payload actually consumed by the code. -/
inductive Upstream (α : Type) where
  | fail : Upstream α
  | ok (val : α) : Upstream α
deriving DecidableEq

/-- Round half to even to an integer, the rounding used by Python `round`. -/
def rhe (q : ℚ) : ℤ :=
  let n := ⌊q⌋
  let f := q - (n : ℚ)
  if f < 1/2 then n
  else if 1/2 < f then n + 1
  else if n % 2 = 0 then n else n + 1

/-- Python `round(x, 2)` on exact rationals. -/
def pyRound2 (q : ℚ) : ℚ := (rhe (100 * q) : ℚ) / 100

/-- Python `game_stat.get(key, 0)`: look a stat key up in a game line,
defaulting to 0. -/
def sget (g : List (String × ℚ)) (k : String) : ℚ := (g.lookup k).getD 0

/-- Python `d.get(key, default)` on a string-keyed table. -/
def lookupD {α : Type} (m : List (String × α)) (k : String) (d : α) : α :=
  (m.lookup k).getD d

/-- One entry of `stats[0].splits`: a single completed game of a game log.
`hand` is `pitcher.hand.code`; absent JSON fields are `none`. -/
structure GameLog where
  date : Option String := none
  team : Option ℕ := none
  opponent : Option ℕ := none
  hand : Option String := none
  stat : List (String × ℚ) := []
deriving DecidableEq

/-- The shape of the hit-rate result dicts produced by the estimators.  Every
field is optional because the Python code returns dicts with different key
sets on different paths; `none` models an absent key (for `pitcher_hand` and
`opponent_id` a present key holding `None` is collapsed with the absent key,
which no claim distinguishes). -/
structure RateDict where
  player : Option String := none
  stat : Option String := none
  threshold : Option ℚ := none
  hit_rate : Option ℚ := none
  sample_size : Option ℕ := none
  confidence : Option String := none
  note : Option String := none
  error : Option String := none
  pitcher_hand : Option String := none
  opponent_id : Option ℕ := none
  fantasy_hit_rate : Option ℚ := none
  games_over : Option ℕ := none
deriving DecidableEq

namespace Contextual

/-- `STAT_KEY_MAP` of `contextual.py`. -/
def STAT_KEY_MAP : List (String × String) :=
  [("batter_total_bases", "totalBases"),
   ("batter_hits", "hits"),
   ("batter_runs_batted_in", "rbi"),
   ("batter_runs", "runs"),
   ("batter_home_runs", "homeRuns"),
   ("batter_stolen_bases", "stolenBases"),
   ("batter_walks", "baseOnBalls"),
   ("batter_strikeouts", "strikeOuts"),
   ("batter_hits_runs_rbis", "combinedStats"),
   ("pitcher_strikeouts", "strikeOuts"),
   ("pitcher_hits_allowed", "hits"),
   ("pitcher_earned_runs", "earnedRuns"),
   ("pitcher_walks", "baseOnBalls"),
   ("pitcher_outs", "outs"),
   ("batter_fantasy_score", "fantasyPoints"),
   ("pitcher_fantasy_score", "fantasyPoints")]

/-- `contextual.get_player_id`: people search; first match or `None`; `None`
on upstream failure. -/
def get_player_id (search : Upstream (List ℕ)) : Option ℕ :=
  match search with
  | .fail => none
  | .ok people => people.head?

/-- `contextual.get_opponent_context`: team/opponent/pitcher-hand of the first
game-log entry; `None` when the log is empty or the request fails.  (A tuple
of three `None`s is truthy in Python, hence `some (none, none, none)` is a
resolved context.) -/
def get_opponent_context (logs : Upstream (List GameLog)) :
    Option (Option ℕ × Option ℕ × Option String) :=
  match logs with
  | .fail => none
  | .ok [] => none
  | .ok (latest_game :: _) =>
    some (latest_game.team, latest_game.opponent, latest_game.hand)

/-- `fallback_rates` table of `contextual.get_fallback_hit_rate`. -/
def fallback_rates : List (String × ℚ) :=
  [("hits", 0.35),
   ("totalBases", 0.40),
   ("rbi", 0.25),
   ("runs", 0.30),
   ("homeRuns", 0.15),
   ("stolenBases", 0.08),
   ("baseOnBalls", 0.20),
   ("strikeOuts", 0.65),
   ("combinedStats", 0.50),
   ("fantasyPoints", 0.45),
   ("pitcher_strikeouts", 0.55),
   ("pitcher_hits_allowed", 0.45),
   ("pitcher_earned_runs", 0.35),
   ("pitcher_walks", 0.20),
   ("pitcher_outs", 0.75)]

/-- The stat key stored in a fallback result:
`STAT_KEY_MAP.get(stat_type, stat_type)` (`None` stays `None`). -/
def fallback_stat_key (stat_type : Option String) : Option String :=
  match stat_type with
  | none => none
  | some s => some (lookupD STAT_KEY_MAP s s)

/-- The base rate looked up by `contextual.get_fallback_hit_rate`:
`fallback_rates.get(mlb_stat_key, 0.35)`. -/
def fallback_base (stat_type : Option String) : ℚ :=
  match fallback_stat_key stat_type with
  | none => 0.35
  | some m => lookupD fallback_rates m 0.35

/-- `contextual.get_fallback_hit_rate`: static base rate scaled down by the
threshold tier, rounded to two decimals; always confidence Low and nominal
sample size 10. -/
def get_fallback_hit_rate (player_name : String) (stat_type : Option String)
    (threshold : ℚ) : RateDict :=
  let base_rate := fallback_base stat_type
  let scaled :=
    if threshold ≥ 5 then base_rate * 0.65
    else if threshold ≥ 3 then base_rate * 0.80
    else if threshold ≥ 1.5 then base_rate * 0.90
    else base_rate
  { player := some player_name,
    stat := fallback_stat_key stat_type,
    threshold := some threshold,
    hit_rate := some (pyRound2 scaled),
    sample_size := some 10,
    confidence := some "Low",
    note := some "Fallback calculation based on MLB averages" }

/-- The per-game stat value computed inline in
`contextual.get_contextual_hit_rate` (lines 177-195): composite handling for
`combinedStats` and `fantasyPoints`, plain lookup otherwise.  Note the
`fantasyPoints` formula has no walks term. -/
def contextualStatValue (mlb_stat_key : String) (game_stat : List (String × ℚ)) : ℚ :=
  if mlb_stat_key = "combinedStats" then
    sget game_stat "hits" + sget game_stat "runs" + sget game_stat "rbi"
  else if mlb_stat_key = "fantasyPoints" then
    let hits := sget game_stat "hits"
    let doubles := sget game_stat "doubles"
    let triples := sget game_stat "triples"
    let hrs := sget game_stat "homeRuns"
    let singles := max 0 (hits - doubles - triples - hrs)
    singles * 1 + doubles * 2 + triples * 3 + hrs * 4 +
      sget game_stat "rbi" + sget game_stat "runs" +
      sget game_stat "stolenBases" * 2
  else sget game_stat mlb_stat_key

/-- The upstream responses one call of `contextual.get_contextual_hit_rate`
may consume.  The `group` query parameter of the game-log request only selects
which upstream data comes back and is absorbed into `statLogs`. -/
structure CtxEnv where
  search : Upstream (List ℕ)
  contextLogs : Upstream (List GameLog)
  statLogs : Upstream (List GameLog)
deriving DecidableEq

/-- `contextual.get_contextual_hit_rate`: the estimator actually used by the
pipeline.  The recent sample is the last 10 games unconditionally (no
opponent/handedness filter); fewer than 2 games falls back; confidence is
High at rate 0.6, Medium at 0.4, Low below, with no sample-size override. -/
def get_contextual_hit_rate (env : CtxEnv) (player_name : String)
    (stat_type : Option String) (threshold : ℚ) : RateDict :=
  match (match stat_type with
         | none => none
         | some s => STAT_KEY_MAP.lookup s) with
  | none => get_fallback_hit_rate player_name stat_type threshold
  | some mlb_stat_key =>
    match get_player_id env.search with
    | none => get_fallback_hit_rate player_name stat_type threshold
    | some _player_id =>
      match get_opponent_context env.contextLogs with
      | none => get_fallback_hit_rate player_name stat_type threshold
      | some (_team_id, opponent_id, pitcher_hand) =>
        match env.statLogs with
        | .fail => get_fallback_hit_rate player_name stat_type threshold
        | .ok logs =>
          let recent := logs.take 10
          if recent.length < 2 then
            get_fallback_hit_rate player_name stat_type threshold
          else
            let over_count := recent.countP
              (fun game => decide (contextualStatValue mlb_stat_key game.stat ≥ threshold))
            let hit_rate := pyRound2 ((over_count : ℚ) / (recent.length : ℚ))
            let confidence :=
              if hit_rate ≥ 0.6 then "High"
              else if hit_rate ≥ 0.4 then "Medium"
              else "Low"
            { player := some player_name,
              stat := some mlb_stat_key,
              threshold := some threshold,
              hit_rate := some hit_rate,
              sample_size := some recent.length,
              confidence := some confidence,
              pitcher_hand := pitcher_hand,
              opponent_id := opponent_id }

end Contextual

namespace Fantasy

/-- `fantasy.get_player_id`: people search; first match or `None`. -/
def get_player_id (search : Upstream (List ℕ)) : Option ℕ :=
  match search with
  | .fail => none
  | .ok people => people.head?

/-- `fantasy.calculate_fantasy_points`: the scoring used by the fantasy tier
(3 per hit, bonuses for extra bases, 2 per run/RBI/walk/HBP, 5 per SB). -/
def calculate_fantasy_points (game_stats : List (String × ℚ)) : ℚ :=
  sget game_stats "hits" * 3 + sget game_stats "doubles" * 2 +
  sget game_stats "triples" * 5 + sget game_stats "homeRuns" * 4 +
  sget game_stats "runs" * 2 + sget game_stats "rbi" * 2 +
  sget game_stats "stolenBases" * 5 + sget game_stats "baseOnBalls" * 2 +
  sget game_stats "hitByPitch" * 2

/-- Upstream responses of one `fantasy.get_fantasy_hit_rate` call. -/
structure FanEnv where
  search : Upstream (List ℕ)
  logs : Upstream (List GameLog)
deriving DecidableEq

/-- `fantasy.get_fantasy_hit_rate`.  The threshold is the raw prop line and
may be absent (`None` in Python); comparing a number against `None` raises a
`TypeError`, which the function catches itself, returning an error-only dict.
Note: on an unresolved player or an empty log this returns a dict holding an
`error` key and no hit rate and no confidence, and the success dict stores
the rate under `fantasy_hit_rate` with no confidence label. -/
def get_fantasy_hit_rate (env : FanEnv) (player_name : String)
    (threshold : Option ℚ) : RateDict :=
  match get_player_id env.search with
  | none => { error := some ("Player " ++ player_name ++ " not found") }
  | some _player_id =>
    match env.logs with
    | .fail => { error := some "Failed to calculate fantasy hit rate" }
    | .ok [] =>
      { error := some "No recent game data found",
        player := some player_name,
        threshold := threshold }
    | .ok (l :: ls) =>
      match threshold with
      | none =>
        -- TypeError comparing against None, caught by the except clause
        { error := some "Failed to calculate fantasy hit rate" }
      | some t =>
        let recent := (l :: ls).take 15
        let games_over := recent.countP
          (fun game => decide (calculate_fantasy_points game.stat ≥ t))
        let total_games := recent.length
        let hit_rate := pyRound2 ((games_over : ℚ) / (total_games : ℚ))
        { player := some player_name,
          threshold := some t,
          fantasy_hit_rate := some hit_rate,
          sample_size := some total_games,
          games_over := some games_over }

end Fantasy

namespace Enrichment

/-- `enrichment.get_stat_mapping`: market-key to API field name, identity for
unknown keys. -/
def get_stat_mapping (stat_type : String) : String :=
  lookupD
    [("batter_hits", "hits"),
     ("batter_rbi", "rbi"),
     ("batter_runs", "runs"),
     ("batter_home_runs", "homeRuns"),
     ("batter_total_bases", "totalBases"),
     ("batter_stolen_bases", "stolenBases"),
     ("batter_walks", "baseOnBalls"),
     ("batter_strikeouts", "strikeOuts"),
     ("batter_hits_runs_rbis", "hits_runs_rbis"),
     ("batter_fantasy_score", "fantasy_score"),
     ("pitcher_strikeouts", "strikeOuts"),
     ("pitcher_hits_allowed", "hits"),
     ("pitcher_earned_runs", "earnedRuns"),
     ("pitcher_walks", "baseOnBalls"),
     ("pitcher_outs", "outs"),
     ("hits", "hits"),
     ("rbi", "rbi"),
     ("runs", "runs"),
     ("homeRuns", "homeRuns"),
     ("totalBases", "totalBases"),
     ("stolenBases", "stolenBases"),
     ("strikeOuts", "strikeOuts"),
     ("baseOnBalls", "baseOnBalls")]
    stat_type stat_type

/-- `enrichment.calculate_custom_stat`: composite stats.  Note the
`fantasy_score` branch computes `singles = hits - doubles - triples - homeRuns`
without clamping at 0 but does include the walks term. -/
def calculate_custom_stat (game_data : List (String × ℚ)) (stat_type : String) : ℚ :=
  if stat_type = "hits_runs_rbis" then
    sget game_data "hits" + sget game_data "runs" + sget game_data "rbi"
  else if stat_type = "fantasy_score" then
    let hits := sget game_data "hits"
    let doubles := sget game_data "doubles"
    let triples := sget game_data "triples"
    let hrs := sget game_data "homeRuns"
    let singles := hits - doubles - triples - hrs
    singles * 1 + doubles * 2 + triples * 3 + hrs * 4 +
      sget game_data "rbi" + sget game_data "runs" +
      sget game_data "stolenBases" * 2 + sget game_data "baseOnBalls"
  else 0

/-- `enrichment.get_confidence_level`: sample sizes below 5 force Low;
otherwise High at 0.60, Medium at 0.50, else Low. -/
def get_confidence_level (hit_rate : ℚ) (sample_size : ℕ) : String :=
  if sample_size < 5 then "Low"
  else if hit_rate ≥ 0.60 then "High"
  else if hit_rate ≥ 0.50 then "Medium"
  else "Low"

/-- `fallback_rates` table of `enrichment.get_fallback_hit_rate`. -/
def efallback_rates : List (String × ℚ) :=
  [("batter_hits", 0.35),
   ("batter_rbi", 0.25),
   ("batter_runs", 0.30),
   ("batter_home_runs", 0.15),
   ("batter_total_bases", 0.40),
   ("batter_stolen_bases", 0.10),
   ("batter_walks", 0.20),
   ("batter_strikeouts", 0.60),
   ("batter_hits_runs_rbis", 0.45),
   ("batter_fantasy_score", 0.50),
   ("pitcher_strikeouts", 0.55),
   ("pitcher_hits_allowed", 0.45),
   ("pitcher_earned_runs", 0.30),
   ("pitcher_walks", 0.25),
   ("pitcher_outs", 0.70),
   ("hits", 0.35),
   ("rbi", 0.25),
   ("runs", 0.30),
   ("homeRuns", 0.15),
   ("totalBases", 0.40),
   ("stolenBases", 0.10),
   ("strikeOuts", 0.60),
   ("baseOnBalls", 0.20)]

/-- Base rate of `enrichment.get_fallback_hit_rate`:
`fallback_rates.get(stat_type, 0.30)`. -/
def efallback_base (stat_type : String) : ℚ :=
  lookupD efallback_rates stat_type 0.30

/-- `enrichment.get_fallback_hit_rate`.  The threshold multipliers here are
0.7 / 0.85 / 0.95 (not the 0.65 / 0.80 / 0.90 of `contextual.py`).  The
surrounding try/except of the source cannot fire (the body is total), so only
the try body is modelled. -/
def get_fallback_hit_rate (player_name : String) (stat_type : String)
    (threshold : ℚ) : RateDict :=
  let base_rate := efallback_base stat_type
  let scaled :=
    if threshold ≥ 5 then base_rate * 0.7
    else if threshold ≥ 3 then base_rate * 0.85
    else if threshold ≥ 1.5 then base_rate * 0.95
    else base_rate
  { player := some player_name,
    stat := some stat_type,
    threshold := some threshold,
    hit_rate := some (pyRound2 scaled),
    sample_size := some 10,
    confidence := some "Low",
    note := some "Fallback calculation - limited data available" }

/-- One entry of the module-level `player_id_cache` of `enrichment.py`:
the resolved id (possibly `None`) with the time it was stored. -/
structure IdCacheEntry where
  player_id : Option ℕ
  timestamp : ℕ
deriving DecidableEq

/-- Python dict assignment `cache[key] = v`: update in place if the key
exists, append otherwise (insertion order preserved). -/
def updateEntry (cache : List (String × IdCacheEntry)) (k : String)
    (v : IdCacheEntry) : List (String × IdCacheEntry) :=
  match cache with
  | [] => [(k, v)]
  | (k0, v0) :: rest =>
    if k0 = k then (k, v) :: rest else (k0, v0) :: updateEntry rest k v

/-- Result of one `enrichment.get_player_id` call: the returned id, the cache
after the call, and whether an upstream request was issued. -/
structure IdLookup where
  player_id : Option ℕ
  cache : List (String × IdCacheEntry)
  requested : Bool
deriving DecidableEq

/-- The un-cached part of `enrichment.get_player_id`: issue the people-search
request; on success cache the result (also a no-match `None`) under the key
with the current time; on failure return `None` leaving the cache unwritten. -/
def get_player_id_request (cache : List (String × IdCacheEntry)) (now : ℕ)
    (search : Upstream (List ℕ)) (cache_key : String) : IdLookup :=
  match search with
  | .fail => { player_id := none, cache := cache, requested := true }
  | .ok people =>
    let player_id := people.head?
    { player_id := player_id,
      cache := updateEntry cache cache_key { player_id := player_id, timestamp := now },
      requested := false } -- placeholder, overwritten below

/-- `enrichment.get_player_id` with its TTL cache: a cache entry younger than
3600 seconds is returned without a request (a cached `None` included, since a
non-empty dict is truthy); otherwise the search is issued and a successful
response (match or no match) is cached with the current timestamp. -/
def get_player_id (cache : List (String × IdCacheEntry)) (now : ℕ)
    (search : Upstream (List ℕ)) (player_name : String) : IdLookup :=
  let cache_key := "player_id_" ++ player_name
  match cache.lookup cache_key with
  | some cached_data =>
    if now - cached_data.timestamp < 3600 then
      { player_id := cached_data.player_id, cache := cache, requested := false }
    else
      { get_player_id_request cache now search cache_key with requested := true }
  | none =>
    { get_player_id_request cache now search cache_key with requested := true }

/-- `enrichment.get_opponent_context`: the variant matching the entry dated
exactly today; `None` when no entry matches or on upstream failure. -/
def get_opponent_context (today : String) (logs : Upstream (List GameLog)) :
    Option (Option ℕ × Option ℕ × Option String) :=
  match logs with
  | .fail => none
  | .ok l =>
    match l.find? (fun g => g.date == some today) with
    | none => none
    | some g => some (g.team, g.opponent, g.hand)

/-- Upstream responses of one `enrichment.get_contextual_hit_rate` call. -/
structure EEnv where
  search : Upstream (List ℕ)
  contextLogs : Upstream (List GameLog)
  statLogs : Upstream (List GameLog)
  today : String
deriving DecidableEq

/-- `enrichment.get_contextual_hit_rate`: the strict variant.  The last 10
games are filtered to the same opponent AND the same pitcher handedness; at
least one such game suffices; confidence comes from `get_confidence_level`. -/
def get_contextual_hit_rate (cache : List (String × IdCacheEntry)) (now : ℕ)
    (env : EEnv) (player_name : String) (stat_type : String) (threshold : ℚ) :
    RateDict :=
  match (get_player_id cache now env.search player_name).player_id with
  | none => get_fallback_hit_rate player_name stat_type threshold
  | some _player_id =>
    match get_opponent_context env.today env.contextLogs with
    | none => get_fallback_hit_rate player_name stat_type threshold
    | some (_team_id, opponent_id, pitcher_hand) =>
      match env.statLogs with
      | .fail => get_fallback_hit_rate player_name stat_type threshold
      | .ok logs =>
        let filtered := (logs.take 10).filter
          (fun game => game.opponent == opponent_id && game.hand == pitcher_hand)
        if filtered = [] then get_fallback_hit_rate player_name stat_type threshold
        else
          let api_field := get_stat_mapping stat_type
          let over_count := filtered.countP (fun game =>
            decide ((if api_field = "hits_runs_rbis" ∨ api_field = "fantasy_score" then
                       calculate_custom_stat game.stat api_field
                     else sget game.stat api_field) ≥ threshold))
          let hit_rate := pyRound2 ((over_count : ℚ) / (filtered.length : ℚ))
          { player := some player_name,
            stat := some stat_type,
            threshold := some threshold,
            hit_rate := some hit_rate,
            sample_size := some filtered.length,
            pitcher_hand := pitcher_hand,
            opponent_id := opponent_id,
            confidence := some (get_confidence_level hit_rate filtered.length) }

end Enrichment

namespace OddsApi

/-- A raw player prop as built by `fetch_player_props`: the market key and the
line may be absent in the upstream outcome, the player name and price are
required by the emission guard. -/
structure PropBet where
  player : String
  stat : Option String
  line : Option ℚ
  odds : ℤ
  bookmaker : String
deriving DecidableEq

/-- `VALID_BOOKS` of `odds_api.py`. -/
def VALID_BOOKS : List String := ["DraftKings", "FanDuel", "BetMGM"]

/-- Python `str` of an optional market key inside the dedup f-string. -/
def ostr : Option String → String
  | none => "None"
  | some s => s

/-- Python `str` of an optional line inside the dedup f-string, modelled by an
injective printer of the exact rational (Python prints the float decimally;
only injectivity and the fixed text for an absent line matter to the code). -/
def lineStr : Option ℚ → String
  | none => "None"
  | some q =>
    (if q.num < 0 then "-" else "") ++ Nat.repr q.num.natAbs ++ "/" ++ Nat.repr q.den

/-- The dedup key `f"{prop['player']}_{prop['stat']}_{prop['line']}"`. -/
def propKey (p : PropBet) : String :=
  p.player ++ "_" ++ ostr p.stat ++ "_" ++ lineStr p.line

/-- The replacement test of `deduplicate_props`:
`(current > 0 and new > current) or (current < 0 and new > current)`. -/
def betterOdds (current_odds new_odds : ℤ) : Bool :=
  (decide (current_odds > 0) && decide (new_odds > current_odds)) ||
  (decide (current_odds < 0) && decide (new_odds > current_odds))

/-- Python dict insert-or-update for `unique_props`: a new key is appended at
the end (insertion order), an existing key keeps its position and its value is
replaced only when the new odds are better. -/
def dedupInsert : List (String × PropBet) → String → PropBet → List (String × PropBet)
  | [], key, prop => [(key, prop)]
  | (k, cur) :: rest, key, prop =>
    if k = key then
      (if betterOdds cur.odds prop.odds then (k, prop) else (k, cur)) :: rest
    else (k, cur) :: dedupInsert rest key prop

/-- The accumulator loop of `deduplicate_props`. -/
def dedupAcc (acc : List (String × PropBet)) (props : List PropBet) :
    List (String × PropBet) :=
  props.foldl (fun m prop => dedupInsert m (propKey prop) prop) acc

/-- `odds_api.deduplicate_props`: one prop per dedup key, better odds winning
on collision, output in first-seen key order (`list(dict.values())`). -/
def deduplicate_props (props : List PropBet) : List PropBet :=
  (dedupAcc [] props).map Prod.snd

/-- One outcome object of a props market response. -/
structure Outcome where
  description : Option String := none
  name : Option String := none
  price : Option ℤ := none
  point : Option ℚ := none
deriving DecidableEq

/-- One market object of a props response. -/
structure Market where
  key : Option String := none
  outcomes : List Outcome := []
deriving DecidableEq

/-- One bookmaker object of a props response. -/
structure Book where
  title : Option String := none
  markets : List Market := []
deriving DecidableEq

/-- The body of one per-event per-batch odds response. -/
structure EventOdds where
  bookmakers : List Book := []
deriving DecidableEq

/-- One event of the events listing, together with the two market-batched
odds responses the code subsequently requests for it. -/
structure EventData where
  id : Option String := none
  batch1 : Upstream EventOdds := .fail
  batch2 : Upstream EventOdds := .fail
deriving DecidableEq

/-- Upstream responses of one `fetch_player_props` run. -/
structure FetchEnv where
  apiKeySet : Bool
  events : Upstream (List EventData)
deriving DecidableEq

/-- Props emitted for one outcome: `player = description or name` must be
truthy (non-empty) and the price present; the point may be absent and is
stored as the (possibly absent) line. -/
def propsOfOutcome (book_title : String) (stat : Option String) (o : Outcome) :
    List PropBet :=
  let player := if o.description.getD "" ≠ "" then o.description.getD ""
                else o.name.getD ""
  match o.price with
  | none => []
  | some price =>
    if player ≠ "" then
      [{ player := player, stat := stat, line := o.point, odds := price,
         bookmaker := book_title }]
    else []

/-- Props collected from one odds response body: bookmakers filtered to the
`VALID_BOOKS` allow-list by title (default title "Unknown"), then all
outcomes of all markets. -/
def propsOfData (data : EventOdds) : List PropBet :=
  data.bookmakers.flatMap (fun book =>
    let book_title := book.title.getD "Unknown"
    if book_title ∈ VALID_BOOKS then
      book.markets.flatMap (fun market =>
        market.outcomes.flatMap (propsOfOutcome book_title market.key))
    else [])

/-- `odds_api.fetch_player_props`: empty without an API key or on a failed
events listing; otherwise per event (skipping falsy ids) both market batches
are fetched, a failed batch is skipped without affecting the rest. -/
def fetch_player_props (env : FetchEnv) : List PropBet :=
  if env.apiKeySet = false then []
  else
    match env.events with
    | .fail => []
    | .ok events =>
      events.flatMap (fun event =>
        match event.id with
        | none => []
        | some eid =>
          if eid = "" then []
          else
            (match event.batch1 with
             | .fail => []
             | .ok data => propsOfData data) ++
            (match event.batch2 with
             | .fail => []
             | .ok data => propsOfData data))

/-- An enriched prop: the original prop fields plus the two estimates, the
`enriched` flag and the optional error annotation. -/
structure EnrichedProp where
  player : String
  stat : Option String
  line : Option ℚ
  odds : ℤ
  bookmaker : String
  contextual_hit_rate : RateDict
  fantasy_hit_rate : RateDict
  enriched : Bool
  error : Option String
deriving DecidableEq

/-- The per-prop effect oracle of one `enrich_prop` task: the upstream
responses consumed by the two estimator calls, plus flags for an exception
escaping either estimator call or the outer body (the code catches all
three). -/
structure EnrichEnv where
  ctx : Contextual.CtxEnv
  fan : Fantasy.FanEnv
  ctxRaises : Bool
  fanRaises : Bool
  outerRaises : Bool
deriving DecidableEq

/-- `odds_api.enrich_prop`.  A prop with an absent line makes every path of
`get_contextual_hit_rate` compare a number against `None`, so that call always
raises a `TypeError` (caught here); `get_fantasy_hit_rate` catches the same
condition internally.  The error dict built in the contextual except branch is
then replaced by the default fallback because it carries an `error` key; the
fantasy result is only replaced `if not fantasy`, which never holds for a
non-empty dict, so a fantasy error dict flows through unchanged. -/
def enrich_prop (e : EnrichEnv) (prop : PropBet) : EnrichedProp :=
  if e.outerRaises then
    { player := prop.player, stat := prop.stat, line := prop.line,
      odds := prop.odds, bookmaker := prop.bookmaker,
      contextual_hit_rate :=
        { hit_rate := some 0.30, confidence := some "Low",
          error := some "Enrichment failed" },
      fantasy_hit_rate :=
        { hit_rate := some 0.35, confidence := some "Low",
          error := some "Enrichment failed" },
      enriched := false,
      error := some "enrichment exception" }
  else
    let contextual0 : RateDict :=
      match prop.line, e.ctxRaises with
      | some t, false =>
        Contextual.get_contextual_hit_rate e.ctx prop.player prop.stat t
      | _, _ =>
        { player := some prop.player, stat := prop.stat, threshold := prop.line,
          hit_rate := none, confidence := some "Unknown",
          error := some "Contextual calculation failed" }
    let contextual : RateDict :=
      if contextual0.error.isSome then
        { player := some prop.player, stat := prop.stat, threshold := prop.line,
          hit_rate := some 0.30, confidence := some "Low",
          note := some "Using fallback hit rate" }
      else contextual0
    let fantasy : RateDict :=
      if e.fanRaises then
        { player := some prop.player, threshold := prop.line,
          hit_rate := some 0.35, confidence := some "Low",
          note := some "Using fallback fantasy rate" }
      else Fantasy.get_fantasy_hit_rate e.fan prop.player prop.line
    { player := prop.player, stat := prop.stat, line := prop.line,
      odds := prop.odds, bookmaker := prop.bookmaker,
      contextual_hit_rate := contextual,
      fantasy_hit_rate := fantasy,
      enriched := true,
      error := none }

/-- `odds_api.enrich_player_props`: `ThreadPoolExecutor.map` preserves input
order and re-raises nothing here (every task body is total), so the
orchestrator is an order-preserving map of the per-prop task; each task sees
only its own prop and its own upstream responses.  The early return for an
empty input coincides with mapping over the empty list. -/
def enrich_player_props (env : PropBet → EnrichEnv) (props : List PropBet) :
    List EnrichedProp :=
  props.map (fun p => enrich_prop (env p) p)

end OddsApi

/-- Modelled from the spec: the composite fantasy-score formula the claims
state, `1*singles + 2*doubles + 3*triples + 4*homeRuns + 1*RBI + 1*runs +
2*stolenBases + 1*walks` with `singles = max(0, hits - doubles - triples -
homeRuns)`; used only as the reference to compare the two source formulas
against. -/
def specFantasyScore (g : List (String × ℚ)) : ℚ :=
  let singles := max 0 (sget g "hits" - sget g "doubles" - sget g "triples" -
    sget g "homeRuns")
  1 * singles + 2 * sget g "doubles" + 3 * sget g "triples" +
    4 * sget g "homeRuns" + 1 * sget g "rbi" + 1 * sget g "runs" +
    2 * sget g "stolenBases" + 1 * sget g "baseOnBalls"

/-- Modelled from the spec: the claimed fallback scaling, multiply by 0.65 at
threshold 5, by 0.80 at 3, by 0.90 at 1.5, else unscaled; reference for the
fallback comparison. -/
def specFallbackScale (base threshold : ℚ) : ℚ :=
  if threshold ≥ 5 then base * 0.65
  else if threshold ≥ 3 then base * 0.80
  else if threshold ≥ 1.5 then base * 0.90
  else base

/-- The scaling `enrichment.get_fallback_hit_rate` actually applies (the
amended multipliers 0.7 / 0.85 / 0.95). -/
def amendedFallbackScaleE (base threshold : ℚ) : ℚ :=
  if threshold ≥ 5 then base * 0.7
  else if threshold ≥ 3 then base * 0.85
  else if threshold ≥ 1.5 then base * 0.95
  else base

section Helpers

theorem rhe_nonneg (q : ℚ) (hq : 0 ≤ q) : 0 ≤ rhe q := by
  have hn : 0 ≤ ⌊q⌋ := Int.floor_nonneg.mpr hq
  simp only [rhe]
  split_ifs <;> omega

theorem rhe_le (q : ℚ) (n : ℤ) (h : q ≤ (n : ℚ)) : rhe q ≤ n := by
  have h1 : ⌊q⌋ ≤ n := by
    have h2 := Int.floor_le_floor h
    simpa using h2
  have h3 : (⌊q⌋ : ℚ) ≤ q := Int.floor_le q
  simp only [rhe]
  split_ifs with hf1 hf2 hpar
  · exact h1
  · have h4 : (⌊q⌋ : ℚ) < (n : ℚ) := by linarith
    have h5 : ⌊q⌋ < n := by exact_mod_cast h4
    omega
  · exact h1
  · have heq : q - ((⌊q⌋ : ℤ) : ℚ) = 1/2 := le_antisymm (not_lt.mp hf2) (not_lt.mp hf1)
    have h4 : (⌊q⌋ : ℚ) < (n : ℚ) := by linarith
    have h5 : ⌊q⌋ < n := by exact_mod_cast h4
    omega

theorem pyRound2_nonneg (q : ℚ) (hq : 0 ≤ q) : 0 ≤ pyRound2 q := by
  have h1 : (0 : ℤ) ≤ rhe (100 * q) := rhe_nonneg _ (by positivity)
  have h2 : (0 : ℚ) ≤ (rhe (100 * q) : ℚ) := by exact_mod_cast h1
  unfold pyRound2
  positivity

theorem pyRound2_le_one (q : ℚ) (hq : q ≤ 1) : pyRound2 q ≤ 1 := by
  have h1 : rhe (100 * q) ≤ (100 : ℤ) := by
    apply rhe_le
    push_cast
    linarith
  rw [pyRound2, div_le_one (by norm_num)]
  exact_mod_cast h1

theorem lookup_mem_snd {α : Type} (l : List (String × α)) (k : String) (v : α)
    (h : l.lookup k = some v) : v ∈ l.map Prod.snd := by
  induction l with
  | nil => simp [List.lookup] at h
  | cons a t ih =>
    rcases a with ⟨k0, v0⟩
    simp only [List.lookup] at h
    by_cases hk : (k == k0) = true
    · simp only [hk] at h
      simp only [Option.some.injEq] at h
      simp [h]
    · rw [Bool.not_eq_true] at hk
      simp only [hk] at h
      simp [ih h]

theorem contextual_rates_bounds :
    ∀ v ∈ Contextual.fallback_rates.map Prod.snd, 0 ≤ v ∧ v ≤ 3/4 := by
  intro v hv
  simp only [Contextual.fallback_rates, List.map_cons, List.map_nil,
    List.mem_cons, List.not_mem_nil, or_false] at hv
  rcases hv with rfl | rfl | rfl | rfl | rfl | rfl | rfl | rfl | rfl | rfl | rfl | rfl | rfl | rfl | rfl
  all_goals norm_num

theorem contextual_fallback_base_bounds (stat : Option String) :
    0 ≤ Contextual.fallback_base stat ∧ Contextual.fallback_base stat ≤ 3/4 := by
  unfold Contextual.fallback_base
  cases Contextual.fallback_stat_key stat with
  | none => norm_num
  | some m =>
    unfold lookupD
    cases hv : Contextual.fallback_rates.lookup m with
    | none => simp only [hv, Option.getD_none]; norm_num
    | some v =>
      have h := contextual_rates_bounds v (lookup_mem_snd _ _ _ hv)
      simp only [hv, Option.getD_some]
      exact h

theorem specFallbackScale_bounds (base t : ℚ) (h0 : 0 ≤ base) (h1 : base ≤ 3/4) :
    0 ≤ specFallbackScale base t ∧ specFallbackScale base t ≤ 1 := by
  unfold specFallbackScale
  split_ifs <;> constructor <;> nlinarith

theorem contextual_fallback_spec (name : String) (stat : Option String) (t : ℚ) :
    Contextual.get_fallback_hit_rate name stat t =
      { player := some name,
        stat := Contextual.fallback_stat_key stat,
        threshold := some t,
        hit_rate := some (pyRound2 (specFallbackScale (Contextual.fallback_base stat) t)),
        sample_size := some 10,
        confidence := some "Low",
        note := some "Fallback calculation based on MLB averages" } := rfl

theorem contextual_fallback_rate_bounds (name : String) (stat : Option String) (t : ℚ) :
    ∃ h, (Contextual.get_fallback_hit_rate name stat t).hit_rate = some h ∧
      0 ≤ h ∧ h ≤ 1 := by
  rw [contextual_fallback_spec]
  refine ⟨_, rfl, ?_, ?_⟩
  · exact pyRound2_nonneg _ (specFallbackScale_bounds _ t
      (contextual_fallback_base_bounds stat).1 (contextual_fallback_base_bounds stat).2).1
  · exact pyRound2_le_one _ (specFallbackScale_bounds _ t
      (contextual_fallback_base_bounds stat).1 (contextual_fallback_base_bounds stat).2).2

theorem ratio_bounds (a b : ℕ) (hab : a ≤ b) (hb : 0 < b) :
    0 ≤ ((a : ℚ) / (b : ℚ)) ∧ ((a : ℚ) / (b : ℚ)) ≤ 1 := by
  constructor
  · positivity
  · rw [div_le_one (by exact_mod_cast hb)]
    exact_mod_cast hab

end Helpers

section EstimatorLemmas

theorem cget_real_path (env : Contextual.CtxEnv) (name s mk : String) (t : ℚ)
    (pid : ℕ) (tid oid : Option ℕ) (hand : Option String) (logs : List GameLog)
    (hstat : Contextual.STAT_KEY_MAP.lookup s = some mk)
    (hid : Contextual.get_player_id env.search = some pid)
    (hctx : Contextual.get_opponent_context env.contextLogs = some (tid, oid, hand))
    (hlogs : env.statLogs = .ok logs)
    (hlen : ¬ (logs.take 10).length < 2) :
    Contextual.get_contextual_hit_rate env name (some s) t =
      { player := some name,
        stat := some mk,
        threshold := some t,
        hit_rate := some (pyRound2 (((logs.take 10).countP (fun game =>
          decide (Contextual.contextualStatValue mk game.stat ≥ t)) : ℚ) /
          ((logs.take 10).length : ℚ))),
        sample_size := some (logs.take 10).length,
        confidence := some (if pyRound2 (((logs.take 10).countP (fun game =>
            decide (Contextual.contextualStatValue mk game.stat ≥ t)) : ℚ) /
            ((logs.take 10).length : ℚ)) ≥ 0.6 then "High"
          else if pyRound2 (((logs.take 10).countP (fun game =>
            decide (Contextual.contextualStatValue mk game.stat ≥ t)) : ℚ) /
            ((logs.take 10).length : ℚ)) ≥ 0.4 then "Medium"
          else "Low"),
        pitcher_hand := hand,
        opponent_id := oid } := by
  simp only [Contextual.get_contextual_hit_rate, hstat, hid, hctx, hlogs, if_neg hlen]

theorem cget_wf (env : Contextual.CtxEnv) (name : String) (stat : Option String)
    (t : ℚ) :
    ∃ h, (Contextual.get_contextual_hit_rate env name stat t).hit_rate = some h ∧
      0 ≤ h ∧ h ≤ 1 ∧
      (Contextual.get_contextual_hit_rate env name stat t).confidence ∈
        [some "Low", some "Medium", some "High"] ∧
      (Contextual.get_contextual_hit_rate env name stat t).error = none := by
  have hfb : ∀ (nm : String) (st : Option String) (th : ℚ),
      ∃ h, (Contextual.get_fallback_hit_rate nm st th).hit_rate = some h ∧
        0 ≤ h ∧ h ≤ 1 ∧
        (Contextual.get_fallback_hit_rate nm st th).confidence ∈
          [some "Low", some "Medium", some "High"] ∧
        (Contextual.get_fallback_hit_rate nm st th).error = none := by
    intro nm st th
    obtain ⟨h, hh, h0, h1⟩ := contextual_fallback_rate_bounds nm st th
    refine ⟨h, hh, h0, h1, ?_, ?_⟩
    · rw [contextual_fallback_spec]
      simp
    · rw [contextual_fallback_spec]
  unfold Contextual.get_contextual_hit_rate
  split
  · exact hfb _ _ _
  · split
    · exact hfb _ _ _
    · split
      · exact hfb _ _ _
      · split
        · exact hfb _ _ _
        · dsimp only
          split
          · exact hfb _ _ _
          · rename_i hlen
            refine ⟨_, rfl, ?_, ?_, ?_, rfl⟩
            · apply pyRound2_nonneg
              exact (ratio_bounds _ _ (List.countP_le_length _) (by omega)).1
            · apply pyRound2_le_one
              exact (ratio_bounds _ _ (List.countP_le_length _) (by omega)).2
            · simp only [List.mem_cons]
              split_ifs <;> simp

theorem cget_low_of_no_id (env : Contextual.CtxEnv) (name : String)
    (stat : Option String) (t : ℚ)
    (hid : Contextual.get_player_id env.search = none) :
    (Contextual.get_contextual_hit_rate env name stat t).confidence = some "Low" := by
  unfold Contextual.get_contextual_hit_rate
  split
  · rw [contextual_fallback_spec]
  · split
    · rw [contextual_fallback_spec]
    · rename_i pid hpid
      rw [hid] at hpid
      cases hpid

theorem enrichment_fallback_spec (name stat : String) (t : ℚ) :
    Enrichment.get_fallback_hit_rate name stat t =
      { player := some name,
        stat := some stat,
        threshold := some t,
        hit_rate := some (pyRound2 (amendedFallbackScaleE (Enrichment.efallback_base stat) t)),
        sample_size := some 10,
        confidence := some "Low",
        note := some "Fallback calculation - limited data available" } := rfl

theorem eget_real_path (cache : List (String × Enrichment.IdCacheEntry)) (now : ℕ)
    (env : Enrichment.EEnv) (name stat : String) (t : ℚ) (pid : ℕ)
    (tid oid : Option ℕ) (hand : Option String) (logs : List GameLog)
    (hid : (Enrichment.get_player_id cache now env.search name).player_id = some pid)
    (hctx : Enrichment.get_opponent_context env.today env.contextLogs =
      some (tid, oid, hand))
    (hlogs : env.statLogs = .ok logs)
    (hne : (logs.take 10).filter
      (fun game => game.opponent == oid && game.hand == hand) ≠ []) :
    Enrichment.get_contextual_hit_rate cache now env name stat t =
      (let filtered := (logs.take 10).filter
         (fun game => game.opponent == oid && game.hand == hand)
       let api_field := Enrichment.get_stat_mapping stat
       let over_count := filtered.countP (fun game =>
         decide ((if api_field = "hits_runs_rbis" ∨ api_field = "fantasy_score" then
                    Enrichment.calculate_custom_stat game.stat api_field
                  else sget game.stat api_field) ≥ t))
       let hit_rate := pyRound2 ((over_count : ℚ) / (filtered.length : ℚ))
       { player := some name,
         stat := some stat,
         threshold := some t,
         hit_rate := some hit_rate,
         sample_size := some filtered.length,
         pitcher_hand := hand,
         opponent_id := oid,
         confidence := some (Enrichment.get_confidence_level hit_rate filtered.length) }) := by
  simp only [Enrichment.get_contextual_hit_rate, hid, hctx, hlogs, if_neg hne]

end EstimatorLemmas

/-- C7 counterexample: on a game line with 1 hit and 1 walk the fantasy
composite computed by `contextual.py` (no walks term) yields 1 while the
claimed formula (1 per walk) yields 2. -/
theorem fantasy_formula_counterexample :
    Contextual.contextualStatValue "fantasyPoints" [("hits", 1), ("baseOnBalls", 1)] = 1 ∧
    specFantasyScore [("hits", 1), ("baseOnBalls", 1)] = 2 ∧
    Contextual.contextualStatValue "fantasyPoints" [("hits", 1), ("baseOnBalls", 1)] ≠
      specFantasyScore [("hits", 1), ("baseOnBalls", 1)] := by
  refine ⟨?_, ?_, ?_⟩ <;>
      (simp [Contextual.contextualStatValue, specFantasyScore, sget, List.lookup, max_def]
       try norm_num)

/-- C7 (amended): neither source formula equals the claimed composite on all
game lines.  The `contextual.py` composite (which clamps singles at 0 but has
no walks term) agrees with the claimed formula exactly when walks = 0; the
`enrichment.py` composite (which has the walks term but does not clamp
singles) agrees exactly when hits ≥ doubles + triples + homeRuns; the
claim's synthetic example line (2 hits incl. 1 double, 1 RBI, 1 run) scores
5 under both. -/
theorem fantasy_formula_amended :
    (∀ g : List (String × ℚ), sget g "baseOnBalls" = 0 →
       Contextual.contextualStatValue "fantasyPoints" g = specFantasyScore g) ∧
    (∀ g : List (String × ℚ),
       sget g "doubles" + sget g "triples" + sget g "homeRuns" ≤ sget g "hits" →
       Enrichment.calculate_custom_stat g "fantasy_score" = specFantasyScore g) ∧
    Contextual.contextualStatValue "fantasyPoints"
      [("hits", 2), ("doubles", 1), ("rbi", 1), ("runs", 1)] = 5 ∧
    Enrichment.calculate_custom_stat
      [("hits", 2), ("doubles", 1), ("rbi", 1), ("runs", 1)] "fantasy_score" = 5 := by
  refine ⟨?_, ?_, ?_, ?_⟩
  · intro g hg
    unfold Contextual.contextualStatValue specFantasyScore
    rw [if_neg (by decide), if_pos rfl]
    dsimp only
    rw [hg]
    ring
  · intro g hg
    unfold Enrichment.calculate_custom_stat specFantasyScore
    rw [if_neg (by decide), if_pos rfl]
    dsimp only
    rw [max_eq_right (by linarith)]
    ring
  · simp [Contextual.contextualStatValue, sget, List.lookup, max_def]
    try norm_num
  · simp [Enrichment.calculate_custom_stat, sget, List.lookup]
    try norm_num

/-- C7 witness: the two conditional agreement statements of the amended claim
evaluated on the claim's synthetic game line (walks = 0 and non-negative
singles hold there). -/
theorem fantasy_formula_amended_witness :
    Contextual.contextualStatValue "fantasyPoints"
      [("hits", 2), ("doubles", 1), ("rbi", 1), ("runs", 1)] =
      specFantasyScore [("hits", 2), ("doubles", 1), ("rbi", 1), ("runs", 1)] ∧
    Enrichment.calculate_custom_stat
      [("hits", 2), ("doubles", 1), ("rbi", 1), ("runs", 1)] "fantasy_score" =
      specFantasyScore [("hits", 2), ("doubles", 1), ("rbi", 1), ("runs", 1)] := by
  constructor
  · refine fantasy_formula_amended.1 _ ?_
    simp [sget, List.lookup]
  · refine fantasy_formula_amended.2.1 _ ?_
    simp [sget, List.lookup]
    try norm_num

/-- C6 counterexample: at threshold 5 `enrichment.get_fallback_hit_rate`
multiplies the 0.35 base rate for batter hits by 0.7, giving 0.24, not the
claimed 0.65 multiplier giving 0.23 (Python rounds both the same way as the
exact model here). -/
theorem fallback_scaling_counterexample :
    (Enrichment.get_fallback_hit_rate "p" "batter_hits" 5).hit_rate = some 0.24 ∧
    pyRound2 (Enrichment.efallback_base "batter_hits" * 0.65) = 0.23 ∧
    (0.24 : ℚ) ≠ 0.23 := by
  refine ⟨?_, ?_, by norm_num⟩
  · simp [Enrichment.get_fallback_hit_rate, Enrichment.efallback_base,
      Enrichment.efallback_rates, lookupD, List.lookup, pyRound2, rhe]
    norm_num [Int.fract]
  · simp [Enrichment.efallback_base, Enrichment.efallback_rates, lookupD,
      List.lookup, pyRound2, rhe]
    norm_num [Int.fract]

/-- C6 (amended): `contextual.get_fallback_hit_rate` scales its static base
rate exactly as the claim states (0.65 / 0.80 / 0.90 tiers, rounded to two
decimals, confidence Low, sample size 10, explanatory note), and a base rate
of 0.35 at threshold 5 yields exactly 0.23; `enrichment.get_fallback_hit_rate`
has the same shape but scales by 0.7 / 0.85 / 0.95 instead. -/
theorem fallback_scaling_amended :
    (∀ (name : String) (stat : Option String) (t : ℚ),
       Contextual.get_fallback_hit_rate name stat t =
         { player := some name,
           stat := Contextual.fallback_stat_key stat,
           threshold := some t,
           hit_rate := some (pyRound2 (specFallbackScale (Contextual.fallback_base stat) t)),
           sample_size := some 10,
           confidence := some "Low",
           note := some "Fallback calculation based on MLB averages" }) ∧
    (∀ (name stat : String) (t : ℚ),
       Enrichment.get_fallback_hit_rate name stat t =
         { player := some name,
           stat := some stat,
           threshold := some t,
           hit_rate := some (pyRound2 (amendedFallbackScaleE (Enrichment.efallback_base stat) t)),
           sample_size := some 10,
           confidence := some "Low",
           note := some "Fallback calculation - limited data available" }) ∧
    (Contextual.get_fallback_hit_rate "p" (some "batter_hits") 5).hit_rate = some 0.23 := by
  refine ⟨fun name stat t => contextual_fallback_spec name stat t,
          fun name stat t => enrichment_fallback_spec name stat t, ?_⟩
  simp [Contextual.get_fallback_hit_rate, Contextual.fallback_base,
    Contextual.fallback_stat_key, lookupD, Contextual.STAT_KEY_MAP,
    Contextual.fallback_rates, List.lookup, pyRound2, rhe]
  norm_num [Int.fract]

/-- C5 counterexample: `contextual.get_contextual_hit_rate` labels a
real-sample estimate with sample size 2 (below 5) as High confidence: the
claimed rule (sample below 5 forces Low) does not hold for this executed
estimator. -/
theorem confidence_counterexample :
    (Contextual.get_contextual_hit_rate
        { search := Upstream.ok [7],
          contextLogs := Upstream.ok [{ team := some 1, opponent := some 2, hand := some "R" }],
          statLogs := Upstream.ok [{ stat := [("hits", 2)] }, { stat := [("hits", 1)] }] }
        "x" (some "batter_hits") 1).confidence = some "High" ∧
    (Contextual.get_contextual_hit_rate
        { search := Upstream.ok [7],
          contextLogs := Upstream.ok [{ team := some 1, opponent := some 2, hand := some "R" }],
          statLogs := Upstream.ok [{ stat := [("hits", 2)] }, { stat := [("hits", 1)] }] }
        "x" (some "batter_hits") 1).sample_size = some 2 := by
  rw [cget_real_path
      { search := Upstream.ok [7],
        contextLogs := Upstream.ok [{ team := some 1, opponent := some 2, hand := some "R" }],
        statLogs := Upstream.ok [{ stat := [("hits", 2)] }, { stat := [("hits", 1)] }] }
      "x" "batter_hits" "hits" 1 7 (some 1) (some 2) (some "R")
      [{ stat := [("hits", 2)] }, { stat := [("hits", 1)] }] rfl rfl rfl rfl (by decide)]
  constructor
  · simp [Contextual.contextualStatValue, sget, List.lookup, pyRound2, rhe,
      List.countP, List.countP.go]
    norm_num [Int.fract]
  · rfl

/-- C5 (amended): `enrichment.get_confidence_level` implements exactly the
claimed rule (High at 0.60, Medium at 0.50, Low otherwise, any sample size
below 5 forcing Low); but the real-sample path of
`contextual.get_contextual_hit_rate`, the estimator the pipeline executes,
labels High at 0.6 and Medium already at 0.4 with no sample-size override. -/
theorem confidence_rule_amended :
    (∀ (r : ℚ) (n : ℕ),
       (n < 5 → Enrichment.get_confidence_level r n = "Low") ∧
       (5 ≤ n → 0.60 ≤ r → Enrichment.get_confidence_level r n = "High") ∧
       (5 ≤ n → 0.50 ≤ r → r < 0.60 → Enrichment.get_confidence_level r n = "Medium") ∧
       (5 ≤ n → r < 0.50 → Enrichment.get_confidence_level r n = "Low")) ∧
    (∀ (env : Contextual.CtxEnv) (name s mk : String) (t : ℚ) (pid : ℕ)
       (tid oid : Option ℕ) (hand : Option String) (logs : List GameLog),
       Contextual.STAT_KEY_MAP.lookup s = some mk →
       Contextual.get_player_id env.search = some pid →
       Contextual.get_opponent_context env.contextLogs = some (tid, oid, hand) →
       env.statLogs = Upstream.ok logs →
       ¬ (logs.take 10).length < 2 →
       (Contextual.get_contextual_hit_rate env name (some s) t).confidence =
         some (if 0.6 ≤ pyRound2 (((logs.take 10).countP (fun game =>
                  decide (Contextual.contextualStatValue mk game.stat ≥ t)) : ℚ) /
                  ((logs.take 10).length : ℚ)) then "High"
               else if 0.4 ≤ pyRound2 (((logs.take 10).countP (fun game =>
                  decide (Contextual.contextualStatValue mk game.stat ≥ t)) : ℚ) /
                  ((logs.take 10).length : ℚ)) then "Medium"
               else "Low")) := by
  constructor
  · intro r n
    refine ⟨?_, ?_, ?_, ?_⟩
    · intro h
      unfold Enrichment.get_confidence_level
      rw [if_pos h]
    · intro h5 hr
      unfold Enrichment.get_confidence_level
      rw [if_neg (by omega), if_pos hr]
    · intro h5 h50 h60
      unfold Enrichment.get_confidence_level
      rw [if_neg (by omega), if_neg (not_le.mpr h60), if_pos h50]
    · intro h5 hr
      unfold Enrichment.get_confidence_level
      rw [if_neg (by omega), if_neg (not_le.mpr (by linarith)), if_neg (not_le.mpr hr)]
  · intro env name s mk t pid tid oid hand logs hstat hid hctx hlogs hlen
    rw [cget_real_path env name s mk t pid tid oid hand logs hstat hid hctx hlogs hlen]

/-- C5 witness: the amended rule applied at concrete inputs: sample 2 gives
Low and sample 10 with rate 0.7 gives High under
`enrichment.get_confidence_level`, and the contextual estimator on a concrete
two-game sample with every game over the threshold reports High. -/
theorem confidence_rule_amended_witness :
    Enrichment.get_confidence_level 0.7 2 = "Low" ∧
    Enrichment.get_confidence_level 0.7 10 = "High" ∧
    (Contextual.get_contextual_hit_rate
        { search := Upstream.ok [7],
          contextLogs := Upstream.ok [{ team := some 3, opponent := some 4, hand := some "L" }],
          statLogs := Upstream.ok [{ stat := [("hits", 3)] }, { stat := [("hits", 1)] }] }
        "y" (some "batter_hits") 1).confidence = some "High" := by
  refine ⟨(confidence_rule_amended.1 0.7 2).1 (by norm_num),
          (confidence_rule_amended.1 0.7 10).2.1 (by norm_num) (by norm_num), ?_⟩
  rw [confidence_rule_amended.2
      { search := Upstream.ok [7],
        contextLogs := Upstream.ok [{ team := some 3, opponent := some 4, hand := some "L" }],
        statLogs := Upstream.ok [{ stat := [("hits", 3)] }, { stat := [("hits", 1)] }] }
      "y" "batter_hits" "hits" 1 7 (some 3) (some 4)
      (some "L") [{ stat := [("hits", 3)] }, { stat := [("hits", 1)] }] rfl rfl rfl rfl
      (by decide)]
  simp [Contextual.contextualStatValue, sget, List.lookup, pyRound2, rhe,
    List.countP, List.countP.go]
  norm_num [Int.fract]

/-- C2 counterexample: for a player whose people-search succeeds with no
match, `fantasy.get_fantasy_hit_rate` returns an error-only dict with no hit
rate and no confidence label, so the fantasy estimation path violates the
claimed estimate shape (and `enrich_prop` passes such a truthy dict through
unchanged). -/
theorem estimate_shape_counterexample :
    (Fantasy.get_fantasy_hit_rate
        { search := Upstream.ok [], logs := Upstream.ok [] } "Nobody" (some 2)).error.isSome
      = true ∧
    (Fantasy.get_fantasy_hit_rate
        { search := Upstream.ok [], logs := Upstream.ok [] } "Nobody" (some 2)).hit_rate
      = none ∧
    (Fantasy.get_fantasy_hit_rate
        { search := Upstream.ok [], logs := Upstream.ok [] } "Nobody" (some 2)).fantasy_hit_rate
      = none ∧
    (Fantasy.get_fantasy_hit_rate
        { search := Upstream.ok [], logs := Upstream.ok [] } "Nobody" (some 2)).confidence
      = none := by
  exact ⟨rfl, rfl, rfl, rfl⟩

/-- C2 (amended): for every prop with a present line the contextual
estimation path produces exactly one estimate with a numeric hit rate in
[0,1], a confidence label and no error, and for a player resolving to no
identifier it reports confidence Low.  For a line-less prop every return path
of the contextual estimator compares a number against the absent threshold,
so a TypeError escapes its boundary; it is `enrich_prop`, outside that
boundary, that catches it and substitutes the default 0.30 / Low fallback
(the fourth conjunct, stated on the `enrich_prop` model whose except branch
records exactly that raise).  The fantasy path never raises past its boundary
but, for a player resolving to no identifier, returns an error-only value
with no hit rate and no confidence label instead of a Low-confidence
estimate. -/
theorem estimate_shape_amended :
    (∀ (env : Contextual.CtxEnv) (name : String) (stat : Option String) (t : ℚ),
       ∃ h, (Contextual.get_contextual_hit_rate env name stat t).hit_rate = some h ∧
         0 ≤ h ∧ h ≤ 1 ∧
         (Contextual.get_contextual_hit_rate env name stat t).confidence ∈
           [some "Low", some "Medium", some "High"] ∧
         (Contextual.get_contextual_hit_rate env name stat t).error = none) ∧
    (∀ (env : Contextual.CtxEnv) (name : String) (stat : Option String) (t : ℚ),
       Contextual.get_player_id env.search = none →
       (Contextual.get_contextual_hit_rate env name stat t).confidence = some "Low") ∧
    (∀ (env : Fantasy.FanEnv) (name : String) (t : Option ℚ),
       Fantasy.get_player_id env.search = none →
       (Fantasy.get_fantasy_hit_rate env name t).error =
         some ("Player " ++ name ++ " not found") ∧
       (Fantasy.get_fantasy_hit_rate env name t).hit_rate = none ∧
       (Fantasy.get_fantasy_hit_rate env name t).fantasy_hit_rate = none ∧
       (Fantasy.get_fantasy_hit_rate env name t).confidence = none) ∧
    (∀ (e : OddsApi.EnrichEnv) (p : OddsApi.PropBet),
       p.line = none → e.outerRaises = false →
       (OddsApi.enrich_prop e p).contextual_hit_rate =
         { player := some p.player, stat := p.stat, threshold := none,
           hit_rate := some 0.30, confidence := some "Low",
           note := some "Using fallback hit rate" }) := by
  refine ⟨cget_wf, cget_low_of_no_id, ?_, ?_⟩
  · intro env name t hid
    unfold Fantasy.get_fantasy_hit_rate
    simp [hid]
  · intro e p hline houter
    unfold OddsApi.enrich_prop
    rw [if_neg (by simp [houter])]
    cases hc : e.ctxRaises <;> simp [hline, hc]

/-- C2 witness: the amended claim applied at a failing search, at a no-match
search, and at a concrete line-less prop: the contextual estimator yields a
bounded rate and Low confidence, the fantasy estimator yields its error-only
dict, and enrichment attaches the default 0.30 / Low fallback to the prop
whose contextual call raised on its absent line. -/
theorem estimate_shape_amended_witness :
    (∃ h, (Contextual.get_contextual_hit_rate
        { search := Upstream.fail, contextLogs := Upstream.fail, statLogs := Upstream.fail }
        "z" (some "batter_hits") 2).hit_rate = some h ∧ 0 ≤ h ∧ h ≤ 1) ∧
    (Contextual.get_contextual_hit_rate
        { search := Upstream.fail, contextLogs := Upstream.fail, statLogs := Upstream.fail }
        "z" (some "batter_hits") 2).confidence = some "Low" ∧
    (Fantasy.get_fantasy_hit_rate
        { search := Upstream.ok [], logs := Upstream.fail } "z" (some 2)).confidence = none ∧
    (OddsApi.enrich_prop
        { ctx := { search := Upstream.fail, contextLogs := Upstream.fail,
                   statLogs := Upstream.fail },
          fan := { search := Upstream.fail, logs := Upstream.fail },
          ctxRaises := false, fanRaises := false, outerRaises := false }
        { player := "L", stat := some "batter_hits", line := none, odds := 110,
          bookmaker := "DraftKings" }).contextual_hit_rate =
      { player := some "L", stat := some "batter_hits", threshold := none,
        hit_rate := some 0.30, confidence := some "Low",
        note := some "Using fallback hit rate" } := by
  refine ⟨?_, estimate_shape_amended.2.1
      { search := Upstream.fail, contextLogs := Upstream.fail, statLogs := Upstream.fail }
      "z" (some "batter_hits") 2 rfl,
    (estimate_shape_amended.2.2.1
      { search := Upstream.ok [], logs := Upstream.fail } "z" (some 2) rfl).2.2.2,
    estimate_shape_amended.2.2.2
      { ctx := { search := Upstream.fail, contextLogs := Upstream.fail,
                 statLogs := Upstream.fail },
        fan := { search := Upstream.fail, logs := Upstream.fail },
        ctxRaises := false, fanRaises := false, outerRaises := false }
      { player := "L", stat := some "batter_hits", line := none, odds := 110,
        bookmaker := "DraftKings" } rfl rfl⟩
  obtain ⟨h, h1, h2, h3, _, _⟩ := estimate_shape_amended.1
    { search := Upstream.fail, contextLogs := Upstream.fail, statLogs := Upstream.fail }
    "z" (some "batter_hits") 2
  exact ⟨h, h1, h2, h3⟩

theorem betterOdds_iff (c n : ℤ) :
    OddsApi.betterOdds c n = true ↔ (c ≠ 0 ∧ c < n) := by
  unfold OddsApi.betterOdds
  simp only [Bool.or_eq_true, Bool.and_eq_true, decide_eq_true_eq]
  omega

theorem dedup_pair (p1 p2 : OddsApi.PropBet)
    (h : OddsApi.propKey p1 = OddsApi.propKey p2) :
    OddsApi.deduplicate_props [p1, p2] =
      [if p1.odds ≠ 0 ∧ p1.odds < p2.odds then p2 else p1] := by
  unfold OddsApi.deduplicate_props OddsApi.dedupAcc
  simp only [List.foldl]
  rw [show OddsApi.dedupInsert [] (OddsApi.propKey p1) p1 = [(OddsApi.propKey p1, p1)] from rfl]
  unfold OddsApi.dedupInsert
  rw [if_pos h]
  by_cases hc : p1.odds ≠ 0 ∧ p1.odds < p2.odds
  · rw [if_pos ((betterOdds_iff _ _).mpr hc), if_pos hc]
    rfl
  · rw [if_neg (fun hb => hc ((betterOdds_iff _ _).mp hb)), if_neg hc]
    rfl

/-- C3 counterexample: with an incumbent at odds 0 the replacement test
`(current > 0 and new > current) or (current < 0 and new > current)` never
fires, so against +150 the 0-odds prop is kept although the pair is not both
positive and +150 is numerically greater — the claimed rule demands +150. -/
theorem dedup_better_odds_counterexample :
    OddsApi.deduplicate_props
      [{ player := "Z", stat := some "batter_hits", line := some 1, odds := 0,
         bookmaker := "DraftKings" },
       { player := "Z", stat := some "batter_hits", line := some 1, odds := 150,
         bookmaker := "FanDuel" }] =
      [{ player := "Z", stat := some "batter_hits", line := some 1, odds := 0,
         bookmaker := "DraftKings" }] ∧
    ((0 : ℤ) < 150 ∧ ¬ ((0 : ℤ) > 0 ∧ (150 : ℤ) > 0)) := by
  constructor
  · rfl
  · decide

/-- C3 (amended): on a two-prop collision the survivor is the second prop
exactly when the incumbent odds are nonzero and the challenger odds are
numerically greater, and the first-seen prop otherwise (so ties and an
incumbent at exactly 0 keep the first-seen entry); in particular +150 beats
+120 and −110 beats −130, in either arrival order. -/
theorem dedup_better_odds_amended :
    (∀ p1 p2 : OddsApi.PropBet, OddsApi.propKey p1 = OddsApi.propKey p2 →
       OddsApi.deduplicate_props [p1, p2] =
         [if p1.odds ≠ 0 ∧ p1.odds < p2.odds then p2 else p1]) ∧
    OddsApi.deduplicate_props
      [{ player := "A", stat := some "batter_hits", line := some 1, odds := 150,
         bookmaker := "DraftKings" },
       { player := "A", stat := some "batter_hits", line := some 1, odds := 120,
         bookmaker := "FanDuel" }] =
      [{ player := "A", stat := some "batter_hits", line := some 1, odds := 150,
         bookmaker := "DraftKings" }] ∧
    OddsApi.deduplicate_props
      [{ player := "A", stat := some "batter_hits", line := some 1, odds := 120,
         bookmaker := "FanDuel" },
       { player := "A", stat := some "batter_hits", line := some 1, odds := 150,
         bookmaker := "DraftKings" }] =
      [{ player := "A", stat := some "batter_hits", line := some 1, odds := 150,
         bookmaker := "DraftKings" }] ∧
    OddsApi.deduplicate_props
      [{ player := "A", stat := some "batter_hits", line := some 1, odds := -110,
         bookmaker := "DraftKings" },
       { player := "A", stat := some "batter_hits", line := some 1, odds := -130,
         bookmaker := "FanDuel" }] =
      [{ player := "A", stat := some "batter_hits", line := some 1, odds := -110,
         bookmaker := "DraftKings" }] ∧
    OddsApi.deduplicate_props
      [{ player := "A", stat := some "batter_hits", line := some 1, odds := -130,
         bookmaker := "FanDuel" },
       { player := "A", stat := some "batter_hits", line := some 1, odds := -110,
         bookmaker := "DraftKings" }] =
      [{ player := "A", stat := some "batter_hits", line := some 1, odds := -110,
         bookmaker := "DraftKings" }] := by
  exact ⟨dedup_pair, rfl, rfl, rfl, rfl⟩

/-- C3 witness: the amended collision rule applied to a concrete mixed-sign
pair (+100 incumbent, −200 challenger): the incumbent is numerically greater
and survives. -/
theorem dedup_better_odds_amended_witness :
    OddsApi.deduplicate_props
      [{ player := "B", stat := some "pitcher_outs", line := some 17, odds := 100,
         bookmaker := "BetMGM" },
       { player := "B", stat := some "pitcher_outs", line := some 17, odds := -200,
         bookmaker := "FanDuel" }] =
      [{ player := "B", stat := some "pitcher_outs", line := some 17, odds := 100,
         bookmaker := "BetMGM" }] := by
  rw [dedup_better_odds_amended.1
      { player := "B", stat := some "pitcher_outs", line := some 17, odds := 100,
        bookmaker := "BetMGM" }
      { player := "B", stat := some "pitcher_outs", line := some 17, odds := -200,
        bookmaker := "FanDuel" } rfl]
  rfl

section DedupLemmas

open OddsApi

theorem dedupInsert_keys (m : List (String × PropBet)) (k : String) (p : PropBet) :
    (dedupInsert m k p).map Prod.fst =
      if k ∈ m.map Prod.fst then m.map Prod.fst else m.map Prod.fst ++ [k] := by
  induction m with
  | nil => simp [dedupInsert]
  | cons a rest ih =>
    rcases a with ⟨k0, v0⟩
    unfold dedupInsert
    by_cases hk : k0 = k
    · subst hk
      rw [if_pos rfl]
      have hmem : k0 ∈ ((k0, v0) :: rest).map Prod.fst := by simp
      rw [if_pos hmem]
      by_cases hb : betterOdds v0.odds p.odds
      · simp [hb]
      · simp [hb]
    · rw [if_neg hk]
      by_cases hm : k ∈ rest.map Prod.fst
      · have hmem : k ∈ ((k0, v0) :: rest).map Prod.fst := by simp [hm]
        rw [if_pos hmem]
        simp only [List.map_cons, ih, if_pos hm]
      · have hmem : k ∉ ((k0, v0) :: rest).map Prod.fst := by
          simp only [List.map_cons, List.mem_cons]
          push_neg
          exact ⟨fun he => hk he.symm, hm⟩
        rw [if_neg hmem]
        simp only [List.map_cons, ih, if_neg hm]
        simp

theorem dedupInsert_length_le (m : List (String × PropBet)) (k : String) (p : PropBet) :
    (dedupInsert m k p).length ≤ m.length + 1 := by
  induction m with
  | nil => simp [dedupInsert]
  | cons a rest ih =>
    rcases a with ⟨k0, v0⟩
    unfold dedupInsert
    by_cases hk : k0 = k
    · rw [if_pos hk]
      simp
    · rw [if_neg hk]
      simpa using Nat.succ_le_succ ih

theorem dedupInsert_invariant (m : List (String × PropBet)) (p : PropBet)
    (h : ∀ q ∈ m, q.1 = propKey q.2) :
    ∀ q ∈ dedupInsert m (propKey p) p, q.1 = propKey q.2 := by
  induction m with
  | nil =>
    intro q hq
    simp only [dedupInsert, List.mem_singleton] at hq
    subst hq
    rfl
  | cons a rest ih =>
    rcases a with ⟨k0, v0⟩
    intro q hq
    unfold dedupInsert at hq
    by_cases hk : k0 = propKey p
    · rw [if_pos hk] at hq
      rcases List.mem_cons.mp hq with h1 | h1
      · subst h1
        by_cases hb : betterOdds v0.odds p.odds
        · simp only [if_pos hb]
          exact hk
        · simp only [if_neg hb]
          exact h (k0, v0) (by simp)
      · exact h q (List.mem_cons_of_mem _ h1)
    · rw [if_neg hk] at hq
      rcases List.mem_cons.mp hq with h1 | h1
      · subst h1
        exact h (k0, v0) (by simp)
      · exact ih (fun q hq => h q (List.mem_cons_of_mem _ hq)) q h1

theorem dedupInsert_of_not_mem (m : List (String × PropBet)) (k : String) (p : PropBet)
    (h : k ∉ m.map Prod.fst) :
    dedupInsert m k p = m ++ [(k, p)] := by
  induction m with
  | nil => rfl
  | cons a rest ih =>
    rcases a with ⟨k0, v0⟩
    simp only [List.map_cons, List.mem_cons] at h
    push_neg at h
    unfold dedupInsert
    rw [if_neg (fun he => h.1 he.symm)]
    simp only [List.cons_append, List.cons.injEq, true_and]
    exact ih h.2

theorem dedupAcc_cons (acc : List (String × PropBet)) (p : PropBet) (rest : List PropBet) :
    dedupAcc acc (p :: rest) = dedupAcc (dedupInsert acc (propKey p) p) rest := rfl

theorem dedupAcc_invariant (props : List PropBet) (acc : List (String × PropBet))
    (h : ∀ q ∈ acc, q.1 = propKey q.2) :
    ∀ q ∈ dedupAcc acc props, q.1 = propKey q.2 := by
  induction props generalizing acc with
  | nil => exact h
  | cons p rest ih =>
    rw [dedupAcc_cons]
    exact ih _ (dedupInsert_invariant acc p h)

theorem dedupAcc_keys_nodup (props : List PropBet) (acc : List (String × PropBet))
    (h : (acc.map Prod.fst).Nodup) :
    ((dedupAcc acc props).map Prod.fst).Nodup := by
  induction props generalizing acc with
  | nil => exact h
  | cons p rest ih =>
    rw [dedupAcc_cons]
    apply ih
    rw [dedupInsert_keys]
    split
    · exact h
    · rename_i hmem
      rw [← List.concat_eq_append]
      exact h.concat hmem

theorem dedupAcc_length (props : List PropBet) (acc : List (String × PropBet)) :
    (dedupAcc acc props).length ≤ acc.length + props.length := by
  induction props generalizing acc with
  | nil => simp [dedupAcc]
  | cons p rest ih =>
    rw [dedupAcc_cons]
    calc (dedupAcc (dedupInsert acc (propKey p) p) rest).length
        ≤ (dedupInsert acc (propKey p) p).length + rest.length := ih _
      _ ≤ (acc.length + 1) + rest.length :=
          Nat.add_le_add_right (dedupInsert_length_le acc _ p) _
      _ = acc.length + (p :: rest).length := by
          simp only [List.length_cons]
          omega

theorem mem_keys_dedupInsert (m : List (String × PropBet)) (k k2 : String) (p : PropBet)
    (h : k ∈ m.map Prod.fst) : k ∈ (dedupInsert m k2 p).map Prod.fst := by
  rw [dedupInsert_keys]
  split
  · exact h
  · exact List.mem_append_left _ h

theorem mem_keys_dedupAcc (props : List PropBet) (acc : List (String × PropBet))
    (k : String) (h : k ∈ acc.map Prod.fst) :
    k ∈ (dedupAcc acc props).map Prod.fst := by
  induction props generalizing acc with
  | nil => exact h
  | cons p rest ih =>
    rw [dedupAcc_cons]
    exact ih _ (mem_keys_dedupInsert acc k (propKey p) p h)

theorem dedupAcc_key_of_mem (props : List PropBet) (acc : List (String × PropBet))
    (p : PropBet) (hp : p ∈ props) :
    propKey p ∈ (dedupAcc acc props).map Prod.fst := by
  induction props generalizing acc with
  | nil => cases hp
  | cons q rest ih =>
    rw [dedupAcc_cons]
    rcases List.mem_cons.mp hp with h1 | h1
    · subst h1
      apply mem_keys_dedupAcc
      rw [dedupInsert_keys]
      split
      · assumption
      · exact List.mem_append_right _ (by simp)
    · exact ih _ h1

theorem dedupAcc_of_nodup (m : List (String × PropBet)) (acc : List (String × PropBet))
    (hinv : ∀ q ∈ m, q.1 = propKey q.2)
    (hnd : ((acc.map Prod.fst) ++ (m.map Prod.fst)).Nodup) :
    dedupAcc acc (m.map Prod.snd) = acc ++ m := by
  induction m generalizing acc with
  | nil => simp [dedupAcc]
  | cons a rest ih =>
    rcases a with ⟨k, v⟩
    have hk : k = propKey v := hinv (k, v) (by simp)
    have hknotin : k ∉ acc.map Prod.fst := by
      have hdisj := List.disjoint_of_nodup_append hnd
      intro hmem
      exact hdisj hmem (by simp)
    show dedupAcc acc (v :: rest.map Prod.snd) = acc ++ (k, v) :: rest
    rw [dedupAcc_cons, ← hk, dedupInsert_of_not_mem acc k v hknotin]
    rw [ih (acc ++ [(k, v)])
      (fun q hq => hinv q (List.mem_cons_of_mem _ hq))
      (by
        have heq : (acc ++ [(k, v)]).map Prod.fst ++ rest.map Prod.fst =
            acc.map Prod.fst ++ (k :: rest.map Prod.fst) := by simp
        rw [heq]
        simpa using hnd)]
    simp

end DedupLemmas

/-- C4 counterexample: the dedup key is the joined string
`player_stat_line`, so the two distinct identities ("a_b", "c", 1) and
("a", "b_c", 1) collide; deduplication keeps only the first, dropping the
(player, stat, line) triple of the second from the output. -/
theorem dedup_algebraic_counterexample :
    OddsApi.deduplicate_props
      [{ player := "a_b", stat := some "c", line := some 1, odds := 100,
         bookmaker := "DraftKings" },
       { player := "a", stat := some "b_c", line := some 1, odds := 50,
         bookmaker := "FanDuel" }] =
      [{ player := "a_b", stat := some "c", line := some 1, odds := 100,
         bookmaker := "DraftKings" }] ∧
    ¬ ∃ q ∈ OddsApi.deduplicate_props
      [{ player := "a_b", stat := some "c", line := some 1, odds := 100,
         bookmaker := "DraftKings" },
       { player := "a", stat := some "b_c", line := some 1, odds := 50,
         bookmaker := "FanDuel" }],
      q.player = "a" ∧ q.stat = some "b_c" ∧ q.line = some 1 := by
  constructor
  · rfl
  · intro hex
    obtain ⟨q, hq, h1, h2, h3⟩ := hex
    rw [show OddsApi.deduplicate_props
      [{ player := "a_b", stat := some "c", line := some 1, odds := 100,
         bookmaker := "DraftKings" },
       { player := "a", stat := some "b_c", line := some 1, odds := 50,
         bookmaker := "FanDuel" }] =
      [{ player := "a_b", stat := some "c", line := some 1, odds := 100,
         bookmaker := "DraftKings" }] from rfl] at hq
    rw [List.mem_singleton] at hq
    subst hq
    simp at h1

/-- C4 (amended): deduplication is idempotent and never increases the number
of props, and every joined-string dedup key `player_stat_line` present in the
input is present in the output; distinct (player, stat, line) triples whose
joined strings coincide are merged, so triple identity is preserved only up
to that string key. -/
theorem dedup_algebraic_amended :
    (∀ x, OddsApi.deduplicate_props (OddsApi.deduplicate_props x) =
       OddsApi.deduplicate_props x) ∧
    (∀ x, (OddsApi.deduplicate_props x).length ≤ x.length) ∧
    (∀ x (p : OddsApi.PropBet), p ∈ x →
       ∃ q ∈ OddsApi.deduplicate_props x, OddsApi.propKey q = OddsApi.propKey p) := by
  refine ⟨?_, ?_, ?_⟩
  · intro x
    have hinv : ∀ q ∈ OddsApi.dedupAcc [] x, q.1 = OddsApi.propKey q.2 :=
      dedupAcc_invariant x [] (by simp)
    have hnd : ((OddsApi.dedupAcc [] x).map Prod.fst).Nodup :=
      dedupAcc_keys_nodup x [] (by simp)
    show (OddsApi.dedupAcc []
      ((OddsApi.dedupAcc [] x).map Prod.snd)).map Prod.snd =
      (OddsApi.dedupAcc [] x).map Prod.snd
    rw [dedupAcc_of_nodup (OddsApi.dedupAcc [] x) [] hinv (by simpa using hnd)]
    simp
  · intro x
    have h := dedupAcc_length x []
    simpa [OddsApi.deduplicate_props] using h
  · intro x p hp
    have hkey := dedupAcc_key_of_mem x [] p hp
    rw [List.mem_map] at hkey
    obtain ⟨pair, hpair, hfst⟩ := hkey
    refine ⟨pair.2, ?_, ?_⟩
    · exact List.mem_map_of_mem Prod.snd hpair
    · rw [← dedupAcc_invariant x [] (by simp) pair hpair]
      exact hfst

/-- C4 witness: the amended claim applied to a concrete singleton list: its
key survives deduplication, and deduplicating twice equals deduplicating
once. -/
theorem dedup_algebraic_amended_witness :
    (∃ q ∈ OddsApi.deduplicate_props
        [{ player := "W", stat := some "batter_hits", line := some 1, odds := -115,
           bookmaker := "BetMGM" }],
       OddsApi.propKey q = OddsApi.propKey
         { player := "W", stat := some "batter_hits", line := some 1, odds := -115,
           bookmaker := "BetMGM" }) ∧
    OddsApi.deduplicate_props (OddsApi.deduplicate_props
        [{ player := "W", stat := some "batter_hits", line := some 1, odds := -115,
           bookmaker := "BetMGM" }]) =
      OddsApi.deduplicate_props
        [{ player := "W", stat := some "batter_hits", line := some 1, odds := -115,
           bookmaker := "BetMGM" }] := by
  exact ⟨dedup_algebraic_amended.2.2 _ _ (by simp), dedup_algebraic_amended.1 _⟩

theorem lookup_updateEntry_self (m : List (String × Enrichment.IdCacheEntry))
    (k : String) (v : Enrichment.IdCacheEntry) :
    (Enrichment.updateEntry m k v).lookup k = some v := by
  induction m with
  | nil => simp [Enrichment.updateEntry, List.lookup]
  | cons a rest ih =>
    rcases a with ⟨k0, v0⟩
    unfold Enrichment.updateEntry
    by_cases hk : k0 = k
    · rw [if_pos hk]
      simp [List.lookup]
    · rw [if_neg hk]
      have hne : (k == k0) = false := beq_eq_false_iff_ne.mpr (fun he => hk he.symm)
      simp [List.lookup, hne, ih]

/-- C9: a people search that succeeds but matches no player is cached as a
`None` entry with the current timestamp, every later resolve of the same name
within the 3600-second TTL answers `None` straight from the cache with no
upstream request and no cache change, and an upstream failure (timeout,
non-2xx, malformed payload) leaves the cache unwritten. -/
theorem resolver_caches_no_match :
    (∀ (cache : List (String × Enrichment.IdCacheEntry)) (t : ℕ) (name : String),
       (Enrichment.get_player_id cache t (Upstream.ok []) name).requested = true →
       (Enrichment.get_player_id cache t (Upstream.ok []) name).player_id = none ∧
       ((Enrichment.get_player_id cache t (Upstream.ok []) name).cache).lookup
         ("player_id_" ++ name) = some { player_id := none, timestamp := t }) ∧
    (∀ (cache : List (String × Enrichment.IdCacheEntry)) (t t2 : ℕ) (name : String)
       (s2 : Upstream (List ℕ)),
       cache.lookup ("player_id_" ++ name) =
         some { player_id := none, timestamp := t } →
       t2 - t < 3600 →
       Enrichment.get_player_id cache t2 s2 name =
         { player_id := none, cache := cache, requested := false }) ∧
    (∀ (cache : List (String × Enrichment.IdCacheEntry)) (t : ℕ) (name : String),
       (Enrichment.get_player_id cache t Upstream.fail name).cache = cache) := by
  refine ⟨?_, ?_, ?_⟩
  · intro cache t name hreq
    unfold Enrichment.get_player_id at hreq ⊢
    cases hc : cache.lookup ("player_id_" ++ name) with
    | some cached_data =>
      simp only [hc] at hreq ⊢
      by_cases hfresh : t - cached_data.timestamp < 3600
      · rw [if_pos hfresh] at hreq
        cases hreq
      · rw [if_neg hfresh]
        exact ⟨rfl, lookup_updateEntry_self _ _ _⟩
    | none =>
      simp only [hc]
      exact ⟨rfl, lookup_updateEntry_self _ _ _⟩
  · intro cache t t2 name s2 hc hfresh
    unfold Enrichment.get_player_id
    simp only [hc]
    rw [if_pos hfresh]
  · intro cache t name
    unfold Enrichment.get_player_id
    cases hc : cache.lookup ("player_id_" ++ name) with
    | some cached_data =>
      simp only [hc]
      by_cases hfresh : t - cached_data.timestamp < 3600
      · rw [if_pos hfresh]
      · rw [if_neg hfresh]
        rfl
    | none =>
      simp only [hc]
      rfl

/-- C9 witness: the three parts of the claim at a concrete run: a no-match
search from an empty cache stores a `None` entry stamped 0, the follow-up
resolve at time 100 answers from the cache without a request even though the
upstream would now fail, and a failing search leaves an empty cache empty. -/
theorem resolver_caches_no_match_witness :
    ((Enrichment.get_player_id [] 0 (Upstream.ok []) "N").cache).lookup
      ("player_id_" ++ "N") = some { player_id := none, timestamp := 0 } ∧
    Enrichment.get_player_id [("player_id_N", { player_id := none, timestamp := 0 })]
      100 Upstream.fail "N" =
      { player_id := none,
        cache := [("player_id_N", { player_id := none, timestamp := 0 })],
        requested := false } ∧
    (Enrichment.get_player_id [] 5 Upstream.fail "N").cache = [] := by
  refine ⟨(resolver_caches_no_match.1 [] 0 "N" rfl).2, ?_, resolver_caches_no_match.2.2 [] 5 "N"⟩
  exact resolver_caches_no_match.2.1 _ 0 100 "N" Upstream.fail (by rfl) (by decide)

theorem enrich_prop_preserves (e : OddsApi.EnrichEnv) (p : OddsApi.PropBet) :
    (OddsApi.enrich_prop e p).player = p.player ∧
    (OddsApi.enrich_prop e p).stat = p.stat ∧
    (OddsApi.enrich_prop e p).line = p.line := by
  unfold OddsApi.enrich_prop
  by_cases h : e.outerRaises = true <;> simp [h]

/-- C1: the enrichment orchestrator returns exactly one enriched prop per
input prop, at the same index and with the same (player, stat, line)
identity, and the result at any index depends only on that prop and the
upstream responses of its own task, so a fault injected into one task cannot
change a sibling result. -/
theorem enrich_orchestrator_spec :
    (∀ (env : OddsApi.PropBet → OddsApi.EnrichEnv) (props : List OddsApi.PropBet),
       (OddsApi.enrich_player_props env props).length = props.length) ∧
    (∀ (env : OddsApi.PropBet → OddsApi.EnrichEnv) (props : List OddsApi.PropBet)
       (i : ℕ),
       ((OddsApi.enrich_player_props env props)[i]?).map
           (fun e => (e.player, e.stat, e.line)) =
         (props[i]?).map (fun p => (p.player, p.stat, p.line))) ∧
    (∀ (env env2 : OddsApi.PropBet → OddsApi.EnrichEnv)
       (props : List OddsApi.PropBet) (i : ℕ) (p : OddsApi.PropBet),
       props[i]? = some p → env p = env2 p →
       (OddsApi.enrich_player_props env props)[i]? =
         (OddsApi.enrich_player_props env2 props)[i]?) := by
  refine ⟨?_, ?_, ?_⟩
  · intro env props
    simp [OddsApi.enrich_player_props]
  · intro env props i
    simp only [OddsApi.enrich_player_props, List.getElem?_map]
    cases hp : props[i]? with
    | none => rfl
    | some p =>
      obtain ⟨h1, h2, h3⟩ := enrich_prop_preserves (env p) p
      simp [h1, h2, h3]
  · intro env env2 props i p hp he
    simp only [OddsApi.enrich_player_props, List.getElem?_map, hp]
    have hee : OddsApi.enrich_prop (env p) p = OddsApi.enrich_prop (env2 p) p := by
      rw [he]
    simp [hee]

/-- C1 witness: the orchestrator applied to a concrete one-prop list under
two different environment assignments that agree on that prop: the entries at
index 0 coincide. -/
theorem enrich_orchestrator_spec_witness :
    (OddsApi.enrich_player_props
      (fun _ =>
        { ctx := { search := Upstream.fail, contextLogs := Upstream.fail,
                   statLogs := Upstream.fail },
          fan := { search := Upstream.fail, logs := Upstream.fail },
          ctxRaises := false, fanRaises := false, outerRaises := false })
      [{ player := "X", stat := some "batter_hits", line := some 1, odds := -115,
         bookmaker := "BetMGM" }])[0]? =
    (OddsApi.enrich_player_props
      (fun q =>
        if q.player = "other" then
          { ctx := { search := Upstream.fail, contextLogs := Upstream.fail,
                     statLogs := Upstream.fail },
            fan := { search := Upstream.fail, logs := Upstream.fail },
            ctxRaises := false, fanRaises := false, outerRaises := true }
        else
          { ctx := { search := Upstream.fail, contextLogs := Upstream.fail,
                     statLogs := Upstream.fail },
            fan := { search := Upstream.fail, logs := Upstream.fail },
            ctxRaises := false, fanRaises := false, outerRaises := false })
      [{ player := "X", stat := some "batter_hits", line := some 1, odds := -115,
         bookmaker := "BetMGM" }])[0]? := by
  apply enrich_orchestrator_spec.2.2 _ _ _ 0
    { player := "X", stat := some "batter_hits", line := some 1, odds := -115,
      bookmaker := "BetMGM" }
  · rfl
  · rw [if_neg (by decide)]

/-- C8 counterexample: with a resolved context naming opponent 1 and a
right-handed pitcher, `contextual.get_contextual_hit_rate` — the estimator
the pipeline runs — computes its rate over the last two games although both
were against opponent 2 with a left-handed pitcher: the same-opponent
same-handedness restriction of the claim filters out every game, yet the
estimator reports a 2-game sample with rate 0.5. -/
theorem contextual_tier_counterexample :
    (Contextual.get_contextual_hit_rate
        { search := Upstream.ok [7],
          contextLogs := Upstream.ok
            [{ team := some 9, opponent := some 1, hand := some "R" }],
          statLogs := Upstream.ok
            [{ opponent := some 2, hand := some "L", stat := [("hits", 1)] },
             { opponent := some 2, hand := some "L", stat := [] }] }
        "x" (some "batter_hits") 1).sample_size = some 2 ∧
    (Contextual.get_contextual_hit_rate
        { search := Upstream.ok [7],
          contextLogs := Upstream.ok
            [{ team := some 9, opponent := some 1, hand := some "R" }],
          statLogs := Upstream.ok
            [{ opponent := some 2, hand := some "L", stat := [("hits", 1)] },
             { opponent := some 2, hand := some "L", stat := [] }] }
        "x" (some "batter_hits") 1).hit_rate = some (1/2) ∧
    ([{ opponent := some 2, hand := some "L", stat := [("hits", (1:ℚ))] },
      ({ opponent := some 2, hand := some "L", stat := [] } : GameLog)].take 10).filter
      (fun game => game.opponent == (some 1 : Option ℕ) &&
        game.hand == (some "R" : Option String)) = [] := by
  rw [cget_real_path
      { search := Upstream.ok [7],
        contextLogs := Upstream.ok
          [{ team := some 9, opponent := some 1, hand := some "R" }],
        statLogs := Upstream.ok
          [{ opponent := some 2, hand := some "L", stat := [("hits", 1)] },
           { opponent := some 2, hand := some "L", stat := [] }] }
      "x" "batter_hits" "hits" 1 7 (some 9) (some 1) (some "R")
      [{ opponent := some 2, hand := some "L", stat := [("hits", 1)] },
       { opponent := some 2, hand := some "L", stat := [] }] rfl rfl rfl rfl (by decide)]
  refine ⟨rfl, ?_, by decide⟩
  simp [Contextual.contextualStatValue, sget, List.lookup, List.countP, List.countP.go,
    pyRound2, rhe]
  norm_num [Int.fract]

/-- C8 (amended): the strict restriction the claim describes is implemented
by `enrichment.get_contextual_hit_rate`: at most the 10 most recent entries
filtered to the same opponent AND the same pitcher handedness, one game
sufficing, rate = matching count over filtered count rounded to two decimals
with composites via the stat mapper.  `contextual.get_contextual_hit_rate`,
which the pipeline actually calls, applies no opponent or handedness filter:
it uses the 10 most recent entries unconditionally and instead requires at
least 2 of them. -/
theorem contextual_tier_amended :
    (∀ (cache : List (String × Enrichment.IdCacheEntry)) (now : ℕ)
       (env : Enrichment.EEnv) (name stat : String) (t : ℚ) (pid : ℕ)
       (tid oid : Option ℕ) (hand : Option String) (logs : List GameLog),
       (Enrichment.get_player_id cache now env.search name).player_id = some pid →
       Enrichment.get_opponent_context env.today env.contextLogs =
         some (tid, oid, hand) →
       env.statLogs = Upstream.ok logs →
       (logs.take 10).filter
         (fun game => game.opponent == oid && game.hand == hand) ≠ [] →
       Enrichment.get_contextual_hit_rate cache now env name stat t =
         (let filtered := (logs.take 10).filter
            (fun game => game.opponent == oid && game.hand == hand)
          let api_field := Enrichment.get_stat_mapping stat
          let over_count := filtered.countP (fun game =>
            decide ((if api_field = "hits_runs_rbis" ∨ api_field = "fantasy_score" then
                       Enrichment.calculate_custom_stat game.stat api_field
                     else sget game.stat api_field) ≥ t))
          let hit_rate := pyRound2 ((over_count : ℚ) / (filtered.length : ℚ))
          { player := some name,
            stat := some stat,
            threshold := some t,
            hit_rate := some hit_rate,
            sample_size := some filtered.length,
            pitcher_hand := hand,
            opponent_id := oid,
            confidence := some (Enrichment.get_confidence_level hit_rate filtered.length) })) ∧
    (∀ (env : Contextual.CtxEnv) (name s mk : String) (t : ℚ) (pid : ℕ)
       (tid oid : Option ℕ) (hand : Option String) (logs : List GameLog),
       Contextual.STAT_KEY_MAP.lookup s = some mk →
       Contextual.get_player_id env.search = some pid →
       Contextual.get_opponent_context env.contextLogs = some (tid, oid, hand) →
       env.statLogs = Upstream.ok logs →
       ¬ (logs.take 10).length < 2 →
       (Contextual.get_contextual_hit_rate env name (some s) t).hit_rate =
         some (pyRound2 (((logs.take 10).countP (fun game =>
           decide (Contextual.contextualStatValue mk game.stat ≥ t)) : ℚ) /
           ((logs.take 10).length : ℚ))) ∧
       (Contextual.get_contextual_hit_rate env name (some s) t).sample_size =
         some (logs.take 10).length) := by
  constructor
  · exact eget_real_path
  · intro env name s mk t pid tid oid hand logs hstat hid hctx hlogs hlen
    rw [cget_real_path env name s mk t pid tid oid hand logs hstat hid hctx hlogs hlen]
    exact ⟨rfl, rfl⟩

/-- C8 witness: the amended claim applied to concrete runs of both
estimators: the strict variant filters the two-game log to the single
same-opponent same-hand game and rates it 1.0 over sample 1, and the loose
variant rates the unfiltered two-game sample. -/
theorem contextual_tier_amended_witness :
    Enrichment.get_contextual_hit_rate [] 0
      { search := Upstream.ok [7],
        contextLogs := Upstream.ok
          [{ date := some "2025-07-01", team := some 9, opponent := some 1,
             hand := some "R" }],
        statLogs := Upstream.ok
          [{ opponent := some 1, hand := some "R", stat := [("hits", 2)] },
           { opponent := some 2, hand := some "L", stat := [("hits", 0)] }],
        today := "2025-07-01" }
      "x" "batter_hits" 1 =
      { player := some "x",
        stat := some "batter_hits",
        threshold := some 1,
        hit_rate := some 1,
        sample_size := some 1,
        pitcher_hand := some "R",
        opponent_id := some 1,
        confidence := some "Low" } ∧
    (Contextual.get_contextual_hit_rate
        { search := Upstream.ok [7],
          contextLogs := Upstream.ok
            [{ team := some 9, opponent := some 1, hand := some "R" }],
          statLogs := Upstream.ok
            [{ opponent := some 2, hand := some "L", stat := [("hits", 1)] },
             { opponent := some 2, hand := some "L", stat := [] }] }
        "x" (some "batter_hits") 1).sample_size = some 2 := by
  constructor
  · rw [contextual_tier_amended.1 [] 0
        { search := Upstream.ok [7],
          contextLogs := Upstream.ok
            [{ date := some "2025-07-01", team := some 9, opponent := some 1,
               hand := some "R" }],
          statLogs := Upstream.ok
            [{ opponent := some 1, hand := some "R", stat := [("hits", 2)] },
             { opponent := some 2, hand := some "L", stat := [("hits", 0)] }],
          today := "2025-07-01" }
        "x" "batter_hits" 1 7 (some 9) (some 1) (some "R")
        [{ opponent := some 1, hand := some "R", stat := [("hits", 2)] },
         { opponent := some 2, hand := some "L", stat := [("hits", 0)] }]
        rfl rfl rfl (by decide)]
    simp [Enrichment.get_stat_mapping, Enrichment.calculate_custom_stat,
      Enrichment.get_confidence_level, lookupD, List.lookup, sget,
      List.countP, List.countP.go, List.filter, pyRound2, rhe]
    try norm_num [Int.fract, RateDict.mk.injEq]
  · exact (contextual_tier_amended.2
      { search := Upstream.ok [7],
        contextLogs := Upstream.ok
          [{ team := some 9, opponent := some 1, hand := some "R" }],
        statLogs := Upstream.ok
          [{ opponent := some 2, hand := some "L", stat := [("hits", 1)] },
           { opponent := some 2, hand := some "L", stat := [] }] }
      "x" "batter_hits" "hits" 1 7 (some 9) (some 1) (some "R")
      [{ opponent := some 2, hand := some "L", stat := [("hits", 1)] },
       { opponent := some 2, hand := some "L", stat := [] }]
      rfl rfl rfl rfl (by decide)).2

theorem mem_propsOfOutcome (bt : String) (st : Option String) (o : OddsApi.Outcome)
    (q : OddsApi.PropBet) (h : q ∈ OddsApi.propsOfOutcome bt st o) :
    q.player ≠ "" ∧ q.bookmaker = bt := by
  unfold OddsApi.propsOfOutcome at h
  cases hpr : o.price with
  | none =>
    rw [hpr] at h
    dsimp only at h
    cases h
  | some price =>
    rw [hpr] at h
    dsimp only at h
    by_cases hpl : (if o.description.getD "" ≠ "" then o.description.getD ""
        else o.name.getD "") ≠ ""
    · rw [if_pos hpl] at h
      rw [List.mem_singleton] at h
      subst h
      exact ⟨hpl, rfl⟩
    · rw [if_neg hpl] at h
      cases h

theorem mem_propsOfData (d : OddsApi.EventOdds) (q : OddsApi.PropBet)
    (h : q ∈ OddsApi.propsOfData d) :
    q.player ≠ "" ∧ q.bookmaker ∈ OddsApi.VALID_BOOKS := by
  unfold OddsApi.propsOfData at h
  rw [List.mem_flatMap] at h
  obtain ⟨book, _, hq⟩ := h
  by_cases ht : (book.title.getD "Unknown") ∈ OddsApi.VALID_BOOKS
  · rw [if_pos ht] at hq
    rw [List.mem_flatMap] at hq
    obtain ⟨market, _, hq⟩ := hq
    rw [List.mem_flatMap] at hq
    obtain ⟨outcome, _, hq⟩ := hq
    obtain ⟨h1, h2⟩ := mem_propsOfOutcome _ _ _ _ hq
    exact ⟨h1, h2 ▸ ht⟩
  · rw [if_neg ht] at hq
    cases hq

/-- C10: every prop emitted by the fetcher has a non-empty player name (the
emission guard `if player and price is not None`) and a bookmaker title from
the closed allow-list, while its line may be absent: a concrete outcome with
no point field yields a prop with `line = none` which deduplication keeps and
enrichment passes through with its identity, line included, unchanged. -/
theorem fetch_props_invariants :
    (∀ (env : OddsApi.FetchEnv) (p : OddsApi.PropBet),
       p ∈ OddsApi.fetch_player_props env →
       p.player ≠ "" ∧ p.bookmaker ∈ OddsApi.VALID_BOOKS) ∧
    OddsApi.fetch_player_props
      { apiKeySet := true,
        events := Upstream.ok
          [{ id := some "ev1",
             batch1 := Upstream.ok
               { bookmakers :=
                   [{ title := some "DraftKings",
                      markets :=
                        [{ key := some "batter_hits",
                           outcomes :=
                             [{ description := some "Line Less",
                                price := some 110 }] }] }] },
             batch2 := Upstream.fail }] } =
      [{ player := "Line Less", stat := some "batter_hits", line := none,
         odds := 110, bookmaker := "DraftKings" }] ∧
    OddsApi.deduplicate_props
      [{ player := "Line Less", stat := some "batter_hits", line := none,
         odds := 110, bookmaker := "DraftKings" }] =
      [{ player := "Line Less", stat := some "batter_hits", line := none,
         odds := 110, bookmaker := "DraftKings" }] ∧
    (∀ e : OddsApi.EnrichEnv,
       (OddsApi.enrich_prop e
         { player := "Line Less", stat := some "batter_hits", line := none,
           odds := 110, bookmaker := "DraftKings" }).player = "Line Less" ∧
       (OddsApi.enrich_prop e
         { player := "Line Less", stat := some "batter_hits", line := none,
           odds := 110, bookmaker := "DraftKings" }).stat = some "batter_hits" ∧
       (OddsApi.enrich_prop e
         { player := "Line Less", stat := some "batter_hits", line := none,
           odds := 110, bookmaker := "DraftKings" }).line = none) := by
  refine ⟨?_, rfl, rfl, ?_⟩
  · intro env p hp
    unfold OddsApi.fetch_player_props at hp
    by_cases ha : env.apiKeySet = false
    · rw [if_pos ha] at hp
      cases hp
    · rw [if_neg ha] at hp
      cases he : env.events with
      | fail =>
        rw [he] at hp
        cases hp
      | ok events =>
        rw [he] at hp
        simp only at hp
        rw [List.mem_flatMap] at hp
        obtain ⟨ev, _, hp⟩ := hp
        cases hid : ev.id with
        | none =>
          rw [hid] at hp
          cases hp
        | some eid =>
          rw [hid] at hp
          simp only at hp
          by_cases heid : eid = ""
          · rw [if_pos heid] at hp
            cases hp
          · rw [if_neg heid] at hp
            rw [List.mem_append] at hp
            rcases hp with hp | hp
            · cases hb : ev.batch1 with
              | fail =>
                rw [hb] at hp
                cases hp
              | ok data =>
                rw [hb] at hp
                exact mem_propsOfData data p hp
            · cases hb : ev.batch2 with
              | fail =>
                rw [hb] at hp
                cases hp
              | ok data =>
                rw [hb] at hp
                exact mem_propsOfData data p hp
  · intro e
    exact enrich_prop_preserves e _

/-- C10 witness: the fetcher invariant applied to the concrete line-less
prop produced by the concrete environment of the claim theorem. -/
theorem fetch_props_invariants_witness :
    ({ player := "Line Less", stat := some "batter_hits", line := none,
       odds := 110, bookmaker := "DraftKings" } : OddsApi.PropBet).player ≠ "" ∧
    ({ player := "Line Less", stat := some "batter_hits", line := none,
       odds := 110, bookmaker := "DraftKings" } : OddsApi.PropBet).bookmaker ∈
      OddsApi.VALID_BOOKS := by
  apply fetch_props_invariants.1
    { apiKeySet := true,
      events := Upstream.ok
        [{ id := some "ev1",
           batch1 := Upstream.ok
             { bookmakers :=
                 [{ title := some "DraftKings",
                    markets :=
                      [{ key := some "batter_hits",
                         outcomes :=
                           [{ description := some "Line Less",
                              price := some 110 }] }] }] },
           batch2 := Upstream.fail }] }
  rw [fetch_props_invariants.2.1]
  simp
